import Mathlib

/-!
# Verification of the voxel world core (`src/server-rs/core/chunks.rs`)

This file is a shallow embedding, in Lean 4, of the chunk container of the
mine.js server (`Chunks` in `src/server-rs/core/chunks.rs`), together with
theorems settling the frozen claims about it.

Embedding conventions:

* Machine integers (`i32`, `u32`, `i16`) become `Int`/`Nat`; wrapping is made
  explicit (`% 2 ^ 32`) at the one subtraction where it matters.
* Code that can panic (`unwrap`, `expect`, array indexing) is embedded in the
  `Option` monad: `none` models a panic, `some` a normal return.  Functions
  whose Rust type is already `Option<...>` therefore return `Option (Option _)`
  here: the outer layer is panic-freedom, the inner one the Rust value.
* The files `chunk.rs`, `constants.rs`, `registry.rs`, `convert.rs` of this
  repository are not part of the given sources; every definition that stands
  in for them is marked `Modelled from the spec:` and follows the spec's
  data-model section (dense `chunk_size × max_height × chunk_size` arrays,
  `min = (cx·S, 0, cz·S)`, stringified-coordinate keys modelled as the
  coordinate pair itself, which the string key is injective over).
* Loops become structural recursion over explicit ranges; the two BFS loops
  (`flood_light`, `remove_light`) take a fuel argument and return `none` when
  it runs out, so every theorem about them quantifies over the fuel.
-/

/-- Block properties, as delivered by the registry oracle.
Modelled from the spec: `registry.rs` is not among the sources; the spec lists
exactly these fields for `Block`. -/
structure Block where
  is_solid : Bool
  is_transparent : Bool
  is_block : Bool
  is_plant : Bool
  is_light : Bool
  is_empty : Bool
  transparent_standalone : Bool
  light_level : Nat
  deriving Repr, DecidableEq

/-- Texture UV rectangle. Modelled from the spec (`registry.rs` absent);
coordinates are exact rationals standing for the source's `f32` (all UV
arithmetic in the mesher is on values where `f32` is exact or where only
list lengths matter to the claims). -/
structure UV where
  start_u : ℚ
  end_u : ℚ
  start_v : ℚ
  end_v : ℚ
  deriving Repr, DecidableEq

/-- The read-only registry oracle. Modelled from the spec: `registry.rs` is
not among the sources; the spec names these operations
(`get_block_by_id`, `get_texture_by_id`, `get_uv_by_id`,
`get_transparency_by_id`, `is_air`, `is_plant`, `get_type_map`);
`get_texture_type` (used by the mesher) is a function of the texture map of
an id, so it is carried as a per-id field. -/
structure Registry where
  get_block_by_id : Nat → Block
  is_air : Nat → Bool
  is_plant : Nat → Bool
  get_texture_by_id : Nat → (String → String)
  get_uv_by_id : Nat → (String → UV)
  texture_type_of_id : Nat → String
  type_map : String → Nat

/-- `get_transparency_by_id`, from the registry.  Modelled from the spec:
transparency of an id is the `is_transparent` property of its block. -/
def Registry.get_transparency_by_id (reg : Registry) (id : Nat) : Bool :=
  (reg.get_block_by_id id).is_transparent

/-- Mesh output buffers (`MeshType` in `libs/types`); `f32` entries are
embedded as exact rationals, `i32` entries as `Int`. -/
structure MeshType where
  positions : List ℚ
  indices : List Int
  uvs : List ℚ
  aos : List ℚ
  sunlights : List Int
  torch_lights : List Int
  deriving Repr, DecidableEq

/-- The pair of stored meshes of a chunk (`Meshes` in `chunk.rs`).
Modelled from the spec: a chunk stores its last-built opaque and
transparent meshes. -/
structure Meshes where
  opaque_m : Option MeshType
  transparent_m : Option MeshType
  deriving Repr, DecidableEq

/-- One chunk.  Modelled from the spec: `chunk.rs` is not among the sources.
The dense voxel / sunlight / torch-light arrays
(`chunk_size × max_height × chunk_size`) and the height map
(`chunk_size × chunk_size`) are embedded as total functions over local
(chunk-relative) `Nat` coordinates; indices outside
`[0, chunk_size) × [0, max_height) × [0, chunk_size)` are outside the real
arrays (claim C6 is about exactly this boundary).  `min = (cx·S, 0, cz·S)`
per the spec, so local = world − min. -/
structure Chunk where
  cx : Int
  cz : Int
  vox : Nat → Nat → Nat → Nat
  sun : Nat → Nat → Nat → Nat
  torch : Nat → Nat → Nat → Nat
  hmap : Nat → Nat → Int
  top_y : Int
  needs_terrain : Bool
  needs_decoration : Bool
  needs_propagation : Bool
  is_dirty : Bool
  needs_saving : Bool
  chunk_is_empty : Bool
  meshes : Meshes

/-- Immutable world configuration (`WorldMetrics` in `world.rs`).
Modelled from the spec: `chunk_size`, `max_height`, `max_light_level`,
`dimension`. -/
structure WorldMetrics where
  chunk_size : Nat
  max_height : Nat
  max_light_level : Nat
  dimension : Nat

/-- The chunk container (`Chunks`).  The source keys chunks by
`get_chunk_name(coords)` in a `HashMap<String, Chunk>`; the stringified key is
injective over coordinates, so the map is embedded as an association list
keyed by the coordinate pair itself. -/
structure Chunks where
  metrics : WorldMetrics
  chunks : List ((Int × Int) × Chunk)

/-- Local x/z coordinate of a world voxel coordinate inside its chunk.
Modelled from the spec: local = world − cx·chunk_size. -/
def localCoord (v : Int) (c : Int) (s : Nat) : Nat := (v - c * (s : Int)).toNat

/-- `Chunk::get_voxel` (world coordinates). Modelled from the spec. -/
def Chunk.get_voxel (s : Nat) (ch : Chunk) (vx vy vz : Int) : Nat :=
  ch.vox (localCoord vx ch.cx s) vy.toNat (localCoord vz ch.cz s)

/-- `Chunk::set_voxel` (world coordinates). Modelled from the spec. -/
def Chunk.set_voxel (s : Nat) (ch : Chunk) (vx vy vz : Int) (id : Nat) : Chunk :=
  { ch with vox := fun a b c =>
      if a = localCoord vx ch.cx s ∧ b = vy.toNat ∧ c = localCoord vz ch.cz s
      then id else ch.vox a b c }

/-- `Chunk::get_sunlight`. Modelled from the spec. -/
def Chunk.get_sunlight (s : Nat) (ch : Chunk) (vx vy vz : Int) : Nat :=
  ch.sun (localCoord vx ch.cx s) vy.toNat (localCoord vz ch.cz s)

/-- `Chunk::set_sunlight`. Modelled from the spec. -/
def Chunk.set_sunlight (s : Nat) (ch : Chunk) (vx vy vz : Int) (level : Nat) : Chunk :=
  { ch with sun := fun a b c =>
      if a = localCoord vx ch.cx s ∧ b = vy.toNat ∧ c = localCoord vz ch.cz s
      then level else ch.sun a b c }

/-- `Chunk::get_torch_light`. Modelled from the spec. -/
def Chunk.get_torch_light (s : Nat) (ch : Chunk) (vx vy vz : Int) : Nat :=
  ch.torch (localCoord vx ch.cx s) vy.toNat (localCoord vz ch.cz s)

/-- `Chunk::set_torch_light`. Modelled from the spec. -/
def Chunk.set_torch_light (s : Nat) (ch : Chunk) (vx vy vz : Int) (level : Nat) : Chunk :=
  { ch with torch := fun a b c =>
      if a = localCoord vx ch.cx s ∧ b = vy.toNat ∧ c = localCoord vz ch.cz s
      then level else ch.torch a b c }

/-- `Chunk::get_max_height`. Modelled from the spec. -/
def Chunk.get_max_height (s : Nat) (ch : Chunk) (vx vz : Int) : Int :=
  ch.hmap (localCoord vx ch.cx s) (localCoord vz ch.cz s)

/-- `Chunk::set_max_height`. Modelled from the spec. -/
def Chunk.set_max_height (s : Nat) (ch : Chunk) (vx vz : Int) (h : Int) : Chunk :=
  { ch with hmap := fun a c =>
      if a = localCoord vx ch.cx s ∧ c = localCoord vz ch.cz s
      then h else ch.hmap a c }

/-- `map_voxel_to_chunk` (`convert.rs`, absent).  Modelled from the spec:
chunk coordinate = floor(voxel / chunk_size), componentwise on x and z. -/
def map_voxel_to_chunk (vx vz : Int) (s : Nat) : Int × Int :=
  (Int.fdiv vx (s : Int), Int.fdiv vz (s : Int))

/-- `VOXEL_NEIGHBORS` (`constants.rs`, absent).  Modelled from the spec:
the 6 axis-aligned unit offsets. -/
def VOXEL_NEIGHBORS : List (Int × Int × Int) :=
  [(1, 0, 0), (-1, 0, 0), (0, 1, 0), (0, -1, 0), (0, 0, 1), (0, 0, -1)]

/-- `CHUNK_NEIGHBORS` (`constants.rs`, absent).  Modelled from the spec:
the 8 horizontal neighbor offsets of a chunk. -/
def CHUNK_NEIGHBORS : List (Int × Int) :=
  [(-1, -1), (-1, 0), (-1, 1), (0, -1), (0, 1), (1, -1), (1, 0), (1, 1)]

/-- `CHUNK_HORIZONTAL_NEIGHBORS` (`constants.rs`, absent).  Modelled from the
spec: the 4 cardinal horizontal offsets. -/
def CHUNK_HORIZONTAL_NEIGHBORS : List (Int × Int) :=
  [(1, 0), (-1, 0), (0, 1), (0, -1)]

/-- `Chunks::get_chunk`: look a chunk up by chunk coordinate. -/
def Chunks.get_chunk (w : Chunks) (c : Int × Int) : Option Chunk :=
  (w.chunks.find? (fun p => p.1 = c)).map Prod.snd

/-- Replace (or insert) the chunk at a coordinate; the embedding of the
`HashMap` writes performed through `get_chunk_mut` and `insert` (a keyed
map: the entry for the key is replaced, all other entries are kept). -/
def Chunks.put_chunk (w : Chunks) (c : Int × Int) (ch : Chunk) : Chunks :=
  { w with chunks :=
      (c, ch) :: w.chunks.filter (fun p => decide (p.1 ≠ c)) }

/-- Apply `f` to the chunk at `c`; `none` models the panic of
`get_chunk_mut(..).unwrap()` / `.expect(..)` when the chunk is absent. -/
def Chunks.modify_chunk (w : Chunks) (c : Int × Int) (f : Chunk → Chunk) :
    Option Chunks := do
  let ch ← w.get_chunk c
  some (w.put_chunk c (f ch))

/-- `Chunks::get_chunk_by_voxel`. -/
def Chunks.get_chunk_by_voxel (w : Chunks) (vx _vy vz : Int) : Option Chunk :=
  w.get_chunk (map_voxel_to_chunk vx vz w.metrics.chunk_size)

/-- Apply `f` to the chunk containing a voxel (`get_chunk_by_voxel_mut`). -/
def Chunks.modify_chunk_by_voxel (w : Chunks) (vx _vy vz : Int)
    (f : Chunk → Chunk) : Option Chunks :=
  w.modify_chunk (map_voxel_to_chunk vx vz w.metrics.chunk_size) f

/-- `Chunks::get_voxel_by_voxel`; `none` is the `expect("Chunk not found.")`
panic. -/
def Chunks.get_voxel_by_voxel (w : Chunks) (vx vy vz : Int) : Option Nat := do
  let ch ← w.get_chunk_by_voxel vx vy vz
  some (ch.get_voxel w.metrics.chunk_size vx vy vz)

/-- `Chunks::set_voxel_by_voxel`: writes the voxel and dirties the chunk. -/
def Chunks.set_voxel_by_voxel (w : Chunks) (vx vy vz : Int) (id : Nat) :
    Option Chunks :=
  w.modify_chunk_by_voxel vx vy vz (fun ch =>
    { ch.set_voxel w.metrics.chunk_size vx vy vz id with is_dirty := true })

/-- `Chunks::get_sunlight`. -/
def Chunks.get_sunlight (w : Chunks) (vx vy vz : Int) : Option Nat := do
  let ch ← w.get_chunk_by_voxel vx vy vz
  some (ch.get_sunlight w.metrics.chunk_size vx vy vz)

/-- `Chunks::set_sunlight`. -/
def Chunks.set_sunlight (w : Chunks) (vx vy vz : Int) (level : Nat) :
    Option Chunks :=
  w.modify_chunk_by_voxel vx vy vz (fun ch =>
    ch.set_sunlight w.metrics.chunk_size vx vy vz level)

/-- `Chunks::get_torch_light`. -/
def Chunks.get_torch_light (w : Chunks) (vx vy vz : Int) : Option Nat := do
  let ch ← w.get_chunk_by_voxel vx vy vz
  some (ch.get_torch_light w.metrics.chunk_size vx vy vz)

/-- `Chunks::set_torch_light`. -/
def Chunks.set_torch_light (w : Chunks) (vx vy vz : Int) (level : Nat) :
    Option Chunks :=
  w.modify_chunk_by_voxel vx vy vz (fun ch =>
    ch.set_torch_light w.metrics.chunk_size vx vy vz level)

/-- `Chunks::get_block_by_voxel`. -/
def Chunks.get_block_by_voxel (reg : Registry) (w : Chunks) (vx vy vz : Int) :
    Option Block := do
  let id ← w.get_voxel_by_voxel vx vy vz
  some (reg.get_block_by_id id)

/-- `Chunks::get_max_height` (of a voxel column). -/
def Chunks.get_max_height (w : Chunks) (vx vz : Int) : Option Int := do
  let ch ← w.get_chunk_by_voxel vx 0 vz
  some (ch.get_max_height w.metrics.chunk_size vx vz)

/-- `Chunks::set_max_height`. -/
def Chunks.set_max_height (w : Chunks) (vx vz : Int) (h : Int) : Option Chunks :=
  w.modify_chunk_by_voxel vx 0 vz (fun ch =>
    ch.set_max_height w.metrics.chunk_size vx vz h)

/-- `Chunks::mark_saving_from_voxel`. -/
def Chunks.mark_saving_from_voxel (w : Chunks) (vx vy vz : Int) : Option Chunks :=
  w.modify_chunk_by_voxel vx vy vz (fun ch => { ch with needs_saving := true })

/-- Node of a light propagation queue (`LightNode`). -/
structure LightNode where
  voxel : Int × Int × Int
  level : Nat
  deriving Repr, DecidableEq

/-- The sunlight no-decay test of `flood_light`
(`let sd = is_sunlight && *oy == -1 && level == max_light_level;`,
chunks.rs line 505). -/
def sunlight_drop (is_sunlight : Bool) (oy : Int) (level maxL : Nat) : Bool :=
  is_sunlight && oy == -1 && level == maxL

/-- The level `flood_light` writes to and enqueues for a neighbor
(`let nl = level - if sd { 0 } else { 1 };`, chunks.rs line 506).
The subtraction is on `u32`; its wrap-around at `level = 0` is kept explicit
(release-profile wrapping semantics; a debug build would panic there). -/
def flood_nl (is_sunlight : Bool) (oy : Int) (level maxL : Nat) : Nat :=
  if sunlight_drop is_sunlight oy level maxL then level
  else (level + (2 ^ 32 - 1)) % 2 ^ 32

/-- The neighbor-skip test of `flood_light`
(`if nvy < 0 || nvy > max_height { continue; }`, chunks.rs line 499).
Note the bound is `> max_height`, not `>= max_height`. -/
def flood_y_skip (nvy maxH : Int) : Bool := nvy < 0 || nvy > maxH

/-- One neighbor of one dequeued node of `flood_light`
(the body of the `for [ox, oy, oz] in VOXEL_NEIGHBORS` loop,
chunks.rs lines 496-532). -/
def flood_step_neighbor (reg : Registry) (is_sunlight : Bool) (maxH : Int)
    (maxL : Nat) (vx vy vz : Int) (level : Nat) (off : Int × Int × Int)
    (w : Chunks) (queue : List LightNode) : Option (Chunks × List LightNode) :=
  let ox := off.1
  let oy := off.2.1
  let oz := off.2.2
  let nvy := vy + oy
  if flood_y_skip nvy maxH then some (w, queue)
  else
    let nvx := vx + ox
    let nvz := vz + oz
    let nl := flood_nl is_sunlight oy level maxL
    do
      let block_type ← Chunks.get_block_by_voxel reg w nvx nvy nvz
      let cur ← if is_sunlight then w.get_sunlight nvx nvy nvz
                else w.get_torch_light nvx nvy nvz
      if !block_type.is_transparent || nl ≤ cur then some (w, queue)
      else do
        let w ← if is_sunlight then w.set_sunlight nvx nvy nvz nl
                else w.set_torch_light nvx nvy nvz nl
        let w ← w.mark_saving_from_voxel nvx nvy nvz
        some (w, queue ++ [⟨(nvx, nvy, nvz), nl⟩])

/-- The `while queue.len() != 0` loop of `flood_light`, with fuel.  One fuel
unit processes one dequeued node (all 6 neighbor offsets, in order). -/
def flood_light_loop (reg : Registry) (is_sunlight : Bool) (maxH : Int)
    (maxL : Nat) : Nat → Chunks → List LightNode → Option Chunks
  | 0, _, _ => none
  | _ + 1, w, [] => some w
  | fuel + 1, w, node :: rest => do
    let st ← VOXEL_NEIGHBORS.foldlM
      (fun (p : Chunks × List LightNode) off =>
        flood_step_neighbor reg is_sunlight maxH maxL
          node.voxel.1 node.voxel.2.1 node.voxel.2.2 node.level off p.1 p.2)
      (w, rest)
    flood_light_loop reg is_sunlight maxH maxL fuel st.1 st.2

/-- `Chunks::flood_light` (chunks.rs lines 488-534). -/
def Chunks.flood_light (reg : Registry) (fuel : Nat) (w : Chunks)
    (queue : List LightNode) (is_sunlight : Bool) : Option Chunks :=
  flood_light_loop reg is_sunlight (w.metrics.max_height : Int)
    w.metrics.max_light_level fuel w queue

/-- The zero-and-enqueue condition of `remove_light`
(`nl < level || (is_sunlight && *oy == -1 && level == max_light_level && nl == max_light_level)`,
chunks.rs lines 590-595). -/
def remove_zero_cond (is_sunlight : Bool) (oy : Int) (level nl maxL : Nat) : Bool :=
  nl < level || (is_sunlight && oy == -1 && level == maxL && nl == maxL)

/-- The refill guard of `remove_light`
(`if !is_sunlight || *oy != -1 || nl > level`, chunks.rs line 609). -/
def remove_refill_cond (is_sunlight : Bool) (oy : Int) (level nl : Nat) : Bool :=
  !is_sunlight || oy != -1 || level < nl

/-- What `remove_light` does to one visited neighbor with current light `nl`. -/
inductive RemovalAction where
  | zero
  | refill
  | skipN
  deriving Repr, DecidableEq

/-- The branch structure of the `remove_light` neighbor body
(chunks.rs lines 585-615): skip at `nl == 0`; zero-and-enqueue under
`remove_zero_cond`; otherwise push onto the refill queue only under
`remove_refill_cond`. -/
def removal_action (is_sunlight : Bool) (oy : Int) (level nl maxL : Nat) :
    RemovalAction :=
  if nl == 0 then .skipN
  else if remove_zero_cond is_sunlight oy level nl maxL then .zero
  else if level ≤ nl then
    (if remove_refill_cond is_sunlight oy level nl then .refill else .skipN)
  else .skipN

/-- One neighbor of one dequeued node of `remove_light`
(the body of the `for [ox, oy, oz] in VOXEL_NEIGHBORS` loop,
chunks.rs lines 568-616).  Note the skip bound here is `nvy >= max_height`
(line 571), unlike `flood_light`. -/
def remove_step_neighbor (is_sunlight : Bool) (maxH : Int) (maxL : Nat)
    (vx vy vz : Int) (level : Nat) (off : Int × Int × Int)
    (w : Chunks) (queue fill : List LightNode) :
    Option (Chunks × List LightNode × List LightNode) :=
  let oy := off.2.1
  let nvy := vy + oy
  if nvy < 0 || maxH ≤ nvy then some (w, queue, fill)
  else
    let nvx := vx + off.1
    let nvz := vz + off.2.2
    do
      let nl ← if is_sunlight then w.get_sunlight nvx nvy nvz
               else w.get_torch_light nvx nvy nvz
      match removal_action is_sunlight oy level nl maxL with
      | .skipN => some (w, queue, fill)
      | .zero => do
        let w ← if is_sunlight then w.set_sunlight nvx nvy nvz 0
                else w.set_torch_light nvx nvy nvz 0
        let w ← w.mark_saving_from_voxel nvx nvy nvz
        some (w, queue ++ [⟨(nvx, nvy, nvz), nl⟩], fill)
      | .refill => some (w, queue, fill ++ [⟨(nvx, nvy, nvz), nl⟩])

/-- The `while queue.len() != 0` loop of `remove_light`, with fuel; returns
the world after removal together with the accumulated refill queue. -/
def remove_light_loop (is_sunlight : Bool) (maxH : Int) (maxL : Nat) :
    Nat → Chunks → List LightNode → List LightNode →
    Option (Chunks × List LightNode)
  | 0, _, _, _ => none
  | _ + 1, w, [], fill => some (w, fill)
  | fuel + 1, w, node :: rest, fill => do
    let st ← VOXEL_NEIGHBORS.foldlM
      (fun (p : Chunks × List LightNode × List LightNode) off =>
        remove_step_neighbor is_sunlight maxH maxL
          node.voxel.1 node.voxel.2.1 node.voxel.2.2 node.level off
          p.1 p.2.1 p.2.2)
      (w, rest, fill)
    remove_light_loop is_sunlight maxH maxL fuel st.1 st.2.1 st.2.2

/-- The removal phase of `Chunks::remove_light` (chunks.rs lines 540-617):
seed the queue with the source voxel's current level, zero it, run the BFS,
and return the world plus the refill queue. -/
def Chunks.remove_removal_phase (fuel : Nat) (w : Chunks) (vx vy vz : Int)
    (is_sunlight : Bool) : Option (Chunks × List LightNode) := do
  let level ← if is_sunlight then w.get_sunlight vx vy vz
              else w.get_torch_light vx vy vz
  let w ← if is_sunlight then w.set_sunlight vx vy vz 0
          else w.set_torch_light vx vy vz 0
  let w ← w.mark_saving_from_voxel vx vy vz
  remove_light_loop is_sunlight (w.metrics.max_height : Int)
    w.metrics.max_light_level fuel w [⟨(vx, vy, vz), level⟩] []

/-- `Chunks::remove_light` (chunks.rs lines 540-620): the removal BFS
followed by `flood_light(fill, is_sunlight)` on the refill queue. -/
def Chunks.remove_light (reg : Registry) (fuel : Nat) (w : Chunks)
    (vx vy vz : Int) (is_sunlight : Bool) : Option Chunks := do
  let st ← Chunks.remove_removal_phase fuel w vx vy vz is_sunlight
  Chunks.flood_light reg fuel st.1 st.2 is_sunlight

/-- Inclusive integer range `lo..=hi` (empty when `hi < lo`). -/
def intRange (lo hi : Int) : List Int :=
  (List.range (hi + 1 - lo).toNat).map (fun (i : Nat) => lo + (i : Int))

/-- Exclusive-upper integer range `lo..hi` (empty when `hi ≤ lo`). -/
def intRangeEx (lo hi : Int) : List Int :=
  (List.range (hi - lo).toNat).map (fun (i : Nat) => lo + (i : Int))

/-- The walk-down of `update`'s height-map maintenance
(`for y in (0..vy).rev() { if y == 0 || !is_air(..) { set_max_height(..); break; } }`,
chunks.rs lines 651-656), entered at `y = vy - 1`.  At `y == 0` the
short-circuit sets the height without reading the voxel. -/
def height_walk (reg : Registry) (w : Chunks) (vx vz : Int) :
    Nat → Option Chunks
  | 0 => w.set_max_height vx vz 0
  | y + 1 => do
    let id ← w.get_voxel_by_voxel vx ((y : Int) + 1) vz
    if !(reg.is_air id) then w.set_max_height vx vz ((y : Int) + 1)
    else height_walk reg w vx vz y

/-- The height-map maintenance step of `update` (chunks.rs lines 647-660):
placing air at the current column height walks down; placing non-air above
the height raises it. -/
def update_height_map (reg : Registry) (w : Chunks) (vx vy vz : Int)
    (id : Nat) (height : Int) : Option Chunks :=
  if reg.is_air id then
    if vy == height then
      (if 1 ≤ vy then height_walk reg w vx vz (vy - 1).toNat else some w)
    else some w
  else if height < vy then w.set_max_height vx vz vy
  else some w

/-- One `is_sunlight` pass of the light-removal step of `update`
(chunks.rs lines 669-678): remove the light at the edited voxel when it is
nonzero. -/
def update_remove_pass (reg : Registry) (fuel : Nat) (w : Chunks)
    (vx vy vz : Int) (is_sunlight : Bool) : Option Chunks := do
  let level ← if is_sunlight then w.get_sunlight vx vy vz
              else w.get_torch_light vx vy vz
  if level ≠ 0 then Chunks.remove_light reg fuel w vx vy vz is_sunlight
  else some w

/-- The neighbor-collection loop of `update`'s opaque-to-transparent branch
(chunks.rs lines 704-732).  The Rust `return` at the bounds check (line 708)
exits the whole per-pass closure, so the inner `none` here means "abort this
pass without flooding"; the outer `Option` is panic-freedom as usual. -/
def update_collect_loop (reg : Registry) (is_sunlight : Bool) (maxH : Int)
    (w : Chunks) (vx vy vz : Int) :
    List (Int × Int × Int) → List LightNode → Option (Option (List LightNode))
  | [], acc => some (some acc)
  | off :: rest, acc =>
    let nvy := vy + off.2.1
    if nvy < 0 || maxH ≤ nvy then some none
    else
      let nvx := vx + off.1
      let nvz := vz + off.2.2
      do
        let blk ← Chunks.get_block_by_voxel reg w nvx nvy nvz
        let level ← if is_sunlight then w.get_sunlight nvx nvy nvz
                    else w.get_torch_light nvx nvy nvz
        if level ≠ 0 && (blk.is_transparent || (blk.is_light && !is_sunlight))
        then update_collect_loop reg is_sunlight maxH w vx vy vz rest
               (acc ++ [⟨(nvx, nvy, nvz), level⟩])
        else update_collect_loop reg is_sunlight maxH w vx vy vz rest acc

/-- One `is_sunlight` pass of `update`'s opaque-to-transparent re-seeding
(chunks.rs lines 693-735). -/
def update_replace_pass (reg : Registry) (fuel : Nat) (is_sunlight : Bool)
    (maxH : Int) (maxL : Nat) (w : Chunks) (vx vy vz : Int) : Option Chunks := do
  if is_sunlight && vy == maxH - 1 then do
    let w ← w.set_sunlight vx vy vz maxL
    Chunks.flood_light reg fuel w [⟨(vx, vy, vz), maxL⟩] is_sunlight
  else do
    let r ← update_collect_loop reg is_sunlight maxH w vx vy vz
              VOXEL_NEIGHBORS []
    match r with
    | none => some w
    | some queue => Chunks.flood_light reg fuel w queue is_sunlight

/-- `Chunks::update` (chunks.rs lines 623-738): the single voxel-edit entry
point — mark saving, write the voxel, maintain the height map, then (if the
chunk has been propagated) remove and re-flood light. -/
def Chunks.update (reg : Registry) (fuel : Nat) (w : Chunks)
    (vx vy vz : Int) (id : Nat) : Option Chunks := do
  let w ← w.modify_chunk_by_voxel vx vy vz
            (fun ch => { ch with needs_saving := true })
  let ch ← w.get_chunk_by_voxel vx vy vz
  let np := ch.needs_propagation
  let maxH : Int := (w.metrics.max_height : Int)
  let maxL := w.metrics.max_light_level
  let height ← w.get_max_height vx vz
  let current_type ← Chunks.get_block_by_voxel reg w vx vy vz
  let updated_type := reg.get_block_by_id id
  let w ← w.set_voxel_by_voxel vx vy vz id
  let w ← update_height_map reg w vx vy vz id height
  if np then some w
  else do
    let w ← if current_type.is_light then
              Chunks.remove_light reg fuel w vx vy vz false
            else if current_type.is_transparent && !updated_type.is_transparent
            then do
              let w ← update_remove_pass reg fuel w vx vy vz false
              update_remove_pass reg fuel w vx vy vz true
            else some w
    if updated_type.is_light then do
      let w ← w.set_torch_light vx vy vz updated_type.light_level
      Chunks.flood_light reg fuel w
        [⟨(vx, vy, vz), updated_type.light_level⟩] false
    else if updated_type.is_transparent && !current_type.is_transparent then do
      let w ← update_replace_pass reg fuel false maxH maxL w vx vy vz
      update_replace_pass reg fuel true maxH maxL w vx vy vz
    else some w

/-- Writing the height-map entry and the conditional top-y bump of
`generate_chunk_height_map` (chunks.rs lines 404-410): note `top_y` is
raised (to `ly + 3`) only when `top_y < ly`. -/
def hm_set (ch : Chunk) (lx lz ly : Nat) : Chunk :=
  { ch with
    top_y := if ch.top_y < (ly : Int) then (ly : Int) + 3 else ch.top_y,
    hmap := fun a c => if a = lx ∧ c = lz then (ly : Int) else ch.hmap a c }

/-- The per-column scan of `generate_chunk_height_map`
(`for ly in (0..max_height).rev()`, chunks.rs lines 399-411), entered at the
top scan index: stop at the first non-air non-plant voxel, or at `ly == 0`. -/
def hm_column (reg : Registry) (ch : Chunk) (lx lz : Nat) : Nat → Chunk
  | 0 => hm_set ch lx lz 0
  | ly + 1 =>
    let id := ch.vox lx (ly + 1) lz
    if !(reg.is_air id) && !(reg.is_plant id) then hm_set ch lx lz (ly + 1)
    else hm_column reg ch lx lz ly

/-- `Chunks::generate_chunk_height_map` (chunks.rs lines 390-415).  The
source binds its scan bound as `let max_height = self.metrics.chunk_size;`
(line 392), so the downward scan starts at `chunk_size - 1`, not at
`metrics.max_height - 1`. -/
def Chunks.generate_chunk_height_map (reg : Registry) (w : Chunks)
    (coords : Int × Int) : Option Chunks :=
  let size := w.metrics.chunk_size
  let scan_bound := w.metrics.chunk_size
  w.modify_chunk coords (fun ch =>
    (List.range size).foldl (fun ch lx =>
      (List.range size).foldl (fun ch lz =>
        match scan_bound with
        | 0 => ch
        | st + 1 => hm_column reg ch lx lz st) ch) ch)

/-- Modelled from the spec: the height-map build as claim C4 states it —
scan from `max_height - 1` downward and set `top_y` to
`max(top_y, ly + 3)` at the found `ly`. -/
def hm_set_claim (ch : Chunk) (lx lz ly : Nat) : Chunk :=
  { ch with
    top_y := max ch.top_y ((ly : Int) + 3),
    hmap := fun a c => if a = lx ∧ c = lz then (ly : Int) else ch.hmap a c }

/-- Modelled from the spec: per-column scan of the claimed height-map build. -/
def hm_column_claim (reg : Registry) (ch : Chunk) (lx lz : Nat) : Nat → Chunk
  | 0 => hm_set_claim ch lx lz 0
  | ly + 1 =>
    let id := ch.vox lx (ly + 1) lz
    if !(reg.is_air id) && !(reg.is_plant id) then hm_set_claim ch lx lz (ly + 1)
    else hm_column_claim reg ch lx lz ly

/-- Modelled from the spec: the whole height-map build as claim C4 states
it, scanning every column from `max_height - 1` downward. -/
def generate_chunk_height_map_claim (reg : Registry) (w : Chunks)
    (coords : Int × Int) : Option Chunks :=
  let size := w.metrics.chunk_size
  let scan_bound := w.metrics.max_height
  w.modify_chunk coords (fun ch =>
    (List.range size).foldl (fun ch lx =>
      (List.range size).foldl (fun ch lz =>
        match scan_bound with
        | 0 => ch
        | st + 1 => hm_column_claim reg ch lx lz st) ch) ch)

/-- The name of the texture slot used by single-texture blocks. -/
def texAll : String := "all"

/-- Block type names used by the terrain stub. -/
def stoneName : String := "Stone"

/-- Block type names used by the terrain stub. -/
def dirtName : String := "Dirt"

/-- Texture-type discriminators used by the mesher. -/
def mat1Name : String := "mat1"

/-- Texture-type discriminators used by the mesher. -/
def mat3Name : String := "mat3"

/-- `Chunk::new` — Modelled from the spec: a chunk is created with all
`needs_*` flags true and empty data; it must be meshed once ready, so it
starts dirty. -/
def Chunk.new (c : Int × Int) : Chunk :=
  { cx := c.1, cz := c.2,
    vox := fun _ _ _ => 0, sun := fun _ _ _ => 0, torch := fun _ _ _ => 0,
    hmap := fun _ _ => 0, top_y := 0,
    needs_terrain := true, needs_decoration := true, needs_propagation := true,
    is_dirty := true, needs_saving := false, chunk_is_empty := false,
    meshes := ⟨none, none⟩ }

/-- `Chunks::generate_chunk` (chunks.rs lines 361-385): the terrain stub —
dirt at `vy == 10`, stone below, and the unconditional `is_empty = true`
write (the source computes `let is_empty = true;` and never updates it). -/
def Chunks.generate_chunk (reg : Registry) (m : WorldMetrics) (ch : Chunk) :
    Chunk :=
  let s := m.chunk_size
  let stone := reg.type_map stoneName
  let dirt := reg.type_map dirtName
  let xs := intRangeEx (ch.cx * (s : Int)) ((ch.cx + 1) * (s : Int))
  let zs := intRangeEx (ch.cz * (s : Int)) ((ch.cz + 1) * (s : Int))
  let ys := intRangeEx 0 (m.max_height : Int)
  let ch :=
    xs.foldl (fun ch vx =>
      zs.foldl (fun ch vz =>
        ys.foldl (fun ch vy =>
          if vy == 10 then ch.set_voxel s vx vy vz dirt
          else if vy < 10 then ch.set_voxel s vx vy vz stone
          else ch) ch) ch) ch
  { ch with chunk_is_empty := true, needs_terrain := false }

/-- `Chunks::decorate_chunk` (chunks.rs lines 213-228): clear
`needs_decoration`, then place the two preset decoration voxels — the
second one into the diagonal neighbor chunk. -/
def Chunks.decorate_chunk (_reg : Registry) (w : Chunks) (coords : Int × Int) :
    Option Chunks := do
  let ch ← w.get_chunk coords
  if !ch.needs_decoration then some w
  else do
    let w ← w.modify_chunk coords (fun c => { c with needs_decoration := false })
    let s := (w.metrics.chunk_size : Int)
    let min_x := ch.cx * s
    let min_z := ch.cz * s
    let w ← w.set_voxel_by_voxel min_x 0 min_z 1
    w.set_voxel_by_voxel (min_x - 1) 0 (min_z - 1) 2

/-- One step of `load`, as an event trace: allocate-and-generate a chunk,
insert a staged chunk, decorate a chunk, or build a chunk's height map. -/
inductive LoadEvent where
  | gen (c : Int × Int)
  | ins (c : Int × Int)
  | dec (c : Int × Int)
  | hm (c : Int × Int)
  deriving Repr, DecidableEq

/-- The offsets enumerated by `load`'s double loop
(`for x in -terrain_radius..=terrain_radius { for z in ... }`,
chunks.rs lines 170-171), in iteration order. -/
def load_offsets (tr : Int) : List (Int × Int) :=
  (intRange (-tr) tr).flatMap (fun x => (intRange (-tr) tr).map (fun z => (x, z)))

/-- The chunk coordinates `load` stages for generation: the enumerated
offsets that survive the `dist >= tr*tr` continue and whose chunk is
missing (chunks.rs lines 172-190), mapped to world chunk coordinates.
The source interleaves this selection with the decoration selection in one
pass over the offsets; the two accumulators are independent, so they are
computed here as two filters of the same offset list. -/
def to_generate_coords (w : Chunks) (center : Int × Int) (tr : Int) :
    List (Int × Int) :=
  ((load_offsets tr).filter (fun p =>
      p.1 * p.1 + p.2 * p.2 < tr * tr
      && (w.get_chunk (center.1 + p.1, center.2 + p.2)).isNone)).map
    (fun p => (center.1 + p.1, center.2 + p.2))

/-- The chunk coordinates `load` stages for decoration: offsets inside the
terrain disk with `dist <= decorate_radius²` (chunks.rs lines 192-194). -/
def to_decorate_coords (center : Int × Int) (tr dr : Int) :
    List (Int × Int) :=
  ((load_offsets tr).filter (fun p =>
      p.1 * p.1 + p.2 * p.2 < tr * tr
      && p.1 * p.1 + p.2 * p.2 ≤ dr * dr)).map
    (fun p => (center.1 + p.1, center.2 + p.2))

/-- The phase trace of one `load` call: every allocate-and-generate, then
every insert, then every decorate, then every height-map build, each in
loop order (the phase structure of chunks.rs lines 170-209). -/
def load_trace (w : Chunks) (center : Int × Int) (render_radius : Int) :
    List LoadEvent :=
  let tr := render_radius + 4
  let gens := to_generate_coords w center tr
  let decs := to_decorate_coords center tr render_radius
  gens.map .gen ++ gens.map .ins ++ decs.map .dec ++ decs.map .hm

/-- `Chunks::load` (chunks.rs lines 161-210), returning the resulting
container together with the trace of its four phases: stage-and-generate
all missing chunks in the open `terrain_radius` disk, insert them, decorate
the closed `decorate_radius` disk, then build those height maps. -/
def Chunks.load (reg : Registry) (w : Chunks) (center : Int × Int)
    (render_radius : Int) : Option (Chunks × List LoadEvent) := do
  let w0 := w
  let tr := render_radius + 4
  let dr := render_radius
  let gens := to_generate_coords w center tr
  let decs := to_decorate_coords center tr dr
  let staged := gens.map (fun c =>
    (c, Chunks.generate_chunk reg w.metrics (Chunk.new c)))
  let w := staged.foldl (fun w p => w.put_chunk p.1 p.2) w
  let w ← decs.foldlM (fun w c => Chunks.decorate_chunk reg w c) w
  let w ← decs.foldlM (fun w c => Chunks.generate_chunk_height_map reg w c) w
  some (w, load_trace w0 center render_radius)

/-- `Chunks::preload` (chunks.rs lines 102-104). -/
def Chunks.preload (reg : Registry) (w : Chunks) (width : Int) :
    Option (Chunks × List LoadEvent) :=
  Chunks.load reg w (0, 0) width

/-- `Chunks::neighbors` (chunks.rs lines 231-245).  The source's doc comment
promises the 3x3 neighborhood (8 chunks), but the inner loop is
`for z in -1..1`, so only the offsets with `z ∈ {-1, 0}` — five chunks —
are returned. -/
def Chunks.neighbors (w : Chunks) (coords : Int × Int) : List (Option Chunk) :=
  (intRange (-1) 1).flatMap (fun x =>
    ((intRangeEx (-1) 1).filter (fun z => !(x == 0 && z == 0))).map (fun z =>
      w.get_chunk (coords.1 + x, coords.2 + z)))

/-- One corner of a block face (`CornerData` in `constants.rs`, absent).
Modelled from the spec: position offset, uv multipliers, and the three
indices into the face's 9-entry neighbor table used for AO. -/
structure CornerData where
  pos : Int × Int × Int
  uv : ℚ × ℚ
  side1 : Nat
  side2 : Nat
  corner : Nat

/-- One of the 6 block faces (`BlockFace` in `constants.rs`, absent).
Modelled from the spec: outward direction, texture slot names, exactly 4
corners, and the 9 AO sample offsets. -/
structure BlockFace where
  dir : Int × Int × Int
  mat3 : String
  mat6 : String
  corners : CornerData × CornerData × CornerData × CornerData
  neighbors : List (Int × Int × Int)

/-- One corner of a plant face (`CornerSimplified`, absent). Modelled from
the spec. -/
structure CornerSimplified where
  pos : Int × Int × Int
  uv : ℚ × ℚ

/-- One plant face (`PlantFace` in `constants.rs`, absent). Modelled from
the spec: a texture slot and exactly 4 corners. -/
structure PlantFace where
  mat : String
  corners : CornerSimplified × CornerSimplified × CornerSimplified × CornerSimplified

/-- The constants tables `BLOCK_FACES` and `PLANT_FACES` (`constants.rs`,
absent).  Modelled from the spec, which fixes only their shape (faces with
4 corners each); the mesher is proved for any such tables. -/
structure FaceTables where
  block_faces : List BlockFace
  plant_faces : List PlantFace

/-- The four corners of a block face, in order. -/
def BlockFace.cornerList (f : BlockFace) : List CornerData :=
  [f.corners.1, f.corners.2.1, f.corners.2.2.1, f.corners.2.2.2]

/-- The four corners of a plant face, in order. -/
def PlantFace.cornerList (f : PlantFace) : List CornerSimplified :=
  [f.corners.1, f.corners.2.1, f.corners.2.2.1, f.corners.2.2.2]

/-- `AO_TABLE` (`constants.rs`, absent).  Modelled from the spec's example
values `{100, 170, 210, 255}`. -/
def AO_TABLE : Nat → ℚ
  | 0 => 100
  | 1 => 170
  | 2 => 210
  | 3 => 255
  | _ => 0

/-- The `vertex_ao` closure of `mesh_chunk` (chunks.rs lines 763-773). -/
def vertex_ao (reg : Registry) (side1 side2 corner : Nat) : Nat :=
  let num_s1 : Nat := if reg.get_transparency_by_id side1 then 1 else 0
  let num_s2 : Nat := if reg.get_transparency_by_id side2 then 1 else 0
  let num_c : Nat := if reg.get_transparency_by_id corner then 1 else 0
  if num_s1 == 1 && num_s2 == 1 then 0 else 3 - (num_s1 + num_s2 + num_c)

/-- The quad-flip decision of `mesh_chunk` (chunks.rs lines 1180-1209),
as a function of the four corner AO values and the four smoothed corner
torch levels.  The source halves `a_t + d_t` in `f32`; for the `i32` light
levels in play that division is exact, so it is embedded in `ℚ`. -/
def quad_flip (a0 a1 a2 a3 : ℚ) (t0 t1 t2 t3 : Int) : Bool :=
  let threshold : Int := 0
  let one_t0 := decide (t0 ≤ threshold) || decide (t1 ≤ threshold)
    || decide (t2 ≤ threshold) || decide (t3 ≤ threshold)
  let ozao := decide (t0 + t3 < t1 + t2) && decide (a0 + a3 = a1 + a2)
  let half : ℚ := ((t0 + t3 : Int) : ℚ) / 2
  let anzp1 := (decide (half < (t1 : ℚ)) && decide ((t2 : ℚ) < half))
    || (decide (half < (t2 : ℚ)) && decide ((t1 : ℚ) < half))
  let anz := one_t0 && anzp1
  decide (a1 + a2 < a0 + a3) || ozao || anz

/-- The per-voxel contribution test of both mesher passes
(chunks.rs lines 790-796 and 1052-1057). -/
def mesh_contributes (blk : Block) (transparent : Bool) : Bool :=
  (blk.is_solid || blk.is_plant)
  && (if transparent then blk.is_transparent else !blk.is_transparent)

/-- The block-face emission test of both mesher passes
(chunks.rs lines 857-862 and 1121-1126). -/
def block_face_test (transparent : Bool) (voxel_id neighbor_id : Nat)
    (nb : Block) (dir : Int × Int × Int) : Bool :=
  nb.is_transparent
  && (!transparent || nb.is_empty || neighbor_id != voxel_id
      || (nb.transparent_standalone && decide (1 ≤ dir.1 + dir.2.1 + dir.2.2)))

/-- A face emitted by the mesher for one voxel. -/
inductive EmittedFace where
  | plant (vx vy vz : Int) (id : Nat) (face : PlantFace)
  | block (vx vy vz : Int) (id : Nat) (face : BlockFace)

/-- The faces the mesher emits for one voxel.  Both passes of `mesh_chunk`
recompute this from identical conditions over unmutated state (`&self`), so
the enumeration is shared between the embedded passes. -/
def mesh_voxel_faces (reg : Registry) (tables : FaceTables) (w : Chunks)
    (transparent : Bool) (vx vy vz : Int) : Option (List EmittedFace) := do
  let id ← w.get_voxel_by_voxel vx vy vz
  let blk := reg.get_block_by_id id
  if !(mesh_contributes blk transparent) then some []
  else if blk.is_plant then
    some (tables.plant_faces.map (EmittedFace.plant vx vy vz id))
  else if blk.is_block then
    tables.block_faces.foldlM (fun acc f => do
      let nid ← w.get_voxel_by_voxel (vx + f.dir.1) (vy + f.dir.2.1)
                  (vz + f.dir.2.2)
      let nb := reg.get_block_by_id nid
      if block_face_test transparent id nid nb f.dir then
        some (acc ++ [EmittedFace.block vx vy vz id f])
      else some acc) []
  else some []

/-- The voxel scan of `mesh_chunk`
(`for vx .. { for vy .. { for vz .. } }`, chunks.rs lines 777-779),
collecting the emitted faces in iteration order. -/
def mesh_scan (reg : Registry) (tables : FaceTables) (w : Chunks)
    (transparent : Bool) (xs ys zs : List Int) : Option (List EmittedFace) :=
  xs.foldlM (fun acc vx =>
    ys.foldlM (fun acc vy =>
      zs.foldlM (fun acc vz => do
        let fs ← mesh_voxel_faces reg tables w transparent vx vy vz
        some (acc ++ fs)) acc) acc) []

/-- Light data of a single vertex (`VertexLight`). -/
structure VertexLight where
  count : Nat
  torch_light : Nat
  sunlight : Nat
  deriving Repr, DecidableEq

/-- The key of the per-vertex light table.  The source keys the `HashMap`
by the stringified scaled position (`get_voxel_name` for block vertices,
`get_position_name` for plant vertices); the string is injective over the
coordinate triple, so the triple itself is the key here (`convert.rs`
absent; block-vertex integer triples and plant-vertex fractional triples
never collide, since plant x/z carry the fractional shrink offset). -/
abbrev VKey := ℚ × ℚ × ℚ

/-- The per-vertex light table (`vertex_to_light`). -/
abbrev VMap := List (VKey × VertexLight)

/-- `HashMap::get` on the vertex-light table. -/
def vmap_get (m : VMap) (k : VKey) : Option VertexLight :=
  (m.find? (fun p => p.1 = k)).map Prod.snd

/-- `HashMap::insert` (replace-or-add) on the vertex-light table. -/
def vmap_insert (m : VMap) (k : VKey) (v : VertexLight) : VMap :=
  if (m.find? (fun p => p.1 = k)).isSome
  then m.map (fun p => if p.1 = k then (k, v) else p)
  else m ++ [(k, v)]

/-- The contains-then-update-or-insert sequence of pass A
(chunks.rs lines 818-842 for plants, 878-902 for blocks). -/
def vmap_add (m : VMap) (k : VKey) (tl sl : Nat) : VMap :=
  match vmap_get m k with
  | some v => vmap_insert m k ⟨v.count + 1, v.torch_light + tl, v.sunlight + sl⟩
  | none => vmap_insert m k ⟨1, tl, sl⟩

/-- The `remove(&rep).unwrap()`-then-insert of the boundary stencil
(chunks.rs lines 989-1003); `none` is the unwrap panic. -/
def vmap_bump (m : VMap) (k : VKey) (tl sl : Nat) : Option VMap := do
  let v ← vmap_get m k
  some (vmap_insert m k ⟨v.count + 1, v.torch_light + tl, v.sunlight + sl⟩)

/-- The 26 boundary test conditions and sample offsets of pass A
(`test_conditions` / `test_offsets`, chunks.rs lines 904-968), in order:
6 face planes, 12 edge lines, 8 corner points. -/
def stencil_pairs (sx sy sz ex ey ez px py pz : Int) :
    List (Bool × (Int × Int × Int)) :=
  [ (px == sx, (-1, 0, 0)),
    (py == sy, (0, -1, 0)),
    (pz == sz, (0, 0, -1)),
    (px == ex, (1, 0, 0)),
    (py == ey, (0, 1, 0)),
    (pz == ez, (0, 0, 1)),
    (px == sx && py == sy, (-1, -1, 0)),
    (px == sx && pz == sz, (-1, 0, -1)),
    (px == sx && py == ey, (-1, 1, 0)),
    (px == sx && pz == ez, (-1, 0, 1)),
    (px == ex && py == sy, (1, -1, 0)),
    (px == ex && pz == sz, (1, 0, -1)),
    (px == ex && py == ey, (1, 1, 0)),
    (px == ex && pz == ez, (1, 0, 1)),
    (py == sy && pz == sz, (0, -1, -1)),
    (py == ey && pz == sz, (0, 1, -1)),
    (py == sy && pz == ez, (0, -1, 1)),
    (py == ey && pz == ez, (0, 1, 1)),
    (px == sx && py == sy && pz == sz, (-1, -1, -1)),
    (px == sx && py == sy && pz == ez, (-1, -1, 1)),
    (px == sx && py == ey && pz == sz, (-1, 1, -1)),
    (px == sx && py == ey && pz == ez, (-1, 1, 1)),
    (px == ex && py == sy && pz == sz, (1, -1, -1)),
    (px == ex && py == sy && pz == ez, (1, -1, 1)),
    (px == ex && py == ey && pz == sz, (1, 1, -1)),
    (px == ex && py == ey && pz == ez, (1, 1, 1)) ]

/-- The X/Z shrink factor for plant corners (`plant_shrink = 0.6`,
chunks.rs line 775).  The `f32` constant 0.6 differs from the rational by
less than `2⁻²⁵`; no claim observes the difference. -/
def plant_shrink : ℚ := 6 / 10

/-- `(1.0 - plant_shrink) / 2.0` (chunks.rs line 805). -/
def plant_offset : ℚ := (1 - plant_shrink) / 2

/-- Pass A for one corner of an emitted block face
(chunks.rs lines 867-1009): accumulate the face's outer-neighbor light into
the vertex entry, sample the boundary stencil, and append the vertex key to
the smoothing reference lists. -/
def passA_block_corner (reg : Registry) (w : Chunks)
    (sx sy sz ex ey ez : Int) (dimI : Int) (vx vy vz nvx nvy nvz : Int)
    (tl sl : Nat) (acc : VMap × List VKey) (c : CornerData) :
    Option (VMap × List VKey) := do
  let px := c.pos.1 + vx
  let py := c.pos.2.1 + vy
  let pz := c.pos.2.2 + vz
  let key : VKey := (((px * dimI : Int) : ℚ), ((py * dimI : Int) : ℚ),
    ((pz * dimI : Int) : ℚ))
  let m := vmap_add acc.1 key tl sl
  let m ← (stencil_pairs sx sy sz ex ey ez px py pz).foldlM (fun m pr =>
    if pr.1 then do
      let blk ← Chunks.get_block_by_voxel reg w (nvx + pr.2.1)
                  (nvy + pr.2.2.1) (nvz + pr.2.2.2)
      if blk.is_transparent then do
        let tn ← w.get_torch_light (nvx + pr.2.1) (nvy + pr.2.2.1)
                   (nvz + pr.2.2.2)
        let sn ← w.get_sunlight (nvx + pr.2.1) (nvy + pr.2.2.1)
                   (nvz + pr.2.2.2)
        vmap_bump m key tn sn
      else some m
    else some m) m
  some (m, acc.2 ++ [key])

/-- Pass A for one emitted face (chunks.rs lines 797-1011): plants sample
the plant's own voxel light at each shrunken corner; block faces sample the
face's outer neighbor plus the boundary stencil. -/
def passA_face (reg : Registry) (w : Chunks) (sx sy sz ex ey ez : Int)
    (dimQ : ℚ) (dimI : Int) (acc : VMap × List VKey) (f : EmittedFace) :
    Option (VMap × List VKey) :=
  match f with
  | .plant vx vy vz _ face => do
    let tl ← w.get_torch_light vx vy vz
    let sl ← w.get_sunlight vx vy vz
    some (face.cornerList.foldl (fun acc c =>
      let px : ℚ := (c.pos.1 : ℚ) * plant_shrink + plant_offset + (vx : ℚ)
      let py : ℚ := ((c.pos.2.1 + vy : Int) : ℚ)
      let pz : ℚ := (c.pos.2.2 : ℚ) * plant_shrink + plant_offset + (vz : ℚ)
      let key : VKey := (px * dimQ, py * dimQ, pz * dimQ)
      (vmap_add acc.1 key tl sl, acc.2 ++ [key])) acc)
  | .block vx vy vz _ face => do
    let nvx := vx + face.dir.1
    let nvy := vy + face.dir.2.1
    let nvz := vz + face.dir.2.2
    let tl ← w.get_torch_light nvx nvy nvz
    let sl ← w.get_sunlight nvx nvy nvz
    face.cornerList.foldlM
      (passA_block_corner reg w sx sy sz ex ey ez dimI vx vy vz
        nvx nvy nvz tl sl) acc

/-- The between-pass smoothing (chunks.rs lines 1018-1036): per reference,
the accumulated light sum over the count.  The source divides in `f32` and
truncates to `i32`; the quotient is never within `f32` rounding error of an
integer it does not equal, so this is `Nat` division. -/
def smooth_levels (m : VMap) :
    List VKey → (VertexLight → Nat) → Option (List Int)
  | [], _ => some []
  | k :: rest, pick => do
    let v ← vmap_get m k
    let tail ← smooth_levels m rest pick
    some (((pick v / v.count : Nat) : Int) :: tail)

/-- Pass B accumulator: the geometry buffers plus the running vertex
counter `i` (chunks.rs line 1038). -/
structure MeshAcc where
  positions : List ℚ
  indices : List Int
  uvs : List ℚ
  aos : List ℚ
  i : Nat

/-- Pass B for one emitted face (chunks.rs lines 1059-1233): emit 4 corner
vertices (positions, uvs, AO) and 6 indices; block faces pick the winding
with `quad_flip` over the corner AOs and the smoothed torch levels at
`i .. i+3`. -/
def passB_face (reg : Registry) (w : Chunks) (dimQ : ℚ)
    (torch_levels : List Int) (acc : MeshAcc) (f : EmittedFace) :
    Option MeshAcc :=
  match f with
  | .plant vx vy vz id face =>
    let texture := reg.get_texture_by_id id
    let uv_map := reg.get_uv_by_id id
    let u := uv_map (texture face.mat)
    let ndx : Int := (acc.positions.length : Int) / 3
    let corners := face.cornerList
    let positions := acc.positions ++ corners.flatMap (fun c =>
      let px : ℚ := (c.pos.1 : ℚ) * plant_shrink + plant_offset + (vx : ℚ)
      let py : ℚ := ((c.pos.2.1 + vy : Int) : ℚ)
      let pz : ℚ := (c.pos.2.2 : ℚ) * plant_shrink + plant_offset + (vz : ℚ)
      [px * dimQ, py * dimQ, pz * dimQ])
    let uvs := acc.uvs ++ corners.flatMap (fun c =>
      [c.uv.1 * (u.end_u - u.start_u) + u.start_u,
       c.uv.2 * (u.start_v - u.end_v) + u.end_v])
    let aos := acc.aos ++ corners.map (fun _ => 1)
    let indices := acc.indices ++ [ndx, ndx + 1, ndx + 2, ndx + 2, ndx + 1, ndx + 3]
    some { positions := positions, indices := indices, uvs := uvs,
           aos := aos, i := acc.i + 4 }
  | .block vx vy vz id face => do
    let texture := reg.get_texture_by_id id
    let texture_type := reg.texture_type_of_id id
    let uv_map := reg.get_uv_by_id id
    let is_mat_1 := texture_type == mat1Name
    let is_mat_3 := texture_type == mat3Name
    let near ← face.neighbors.mapM (fun o =>
      w.get_voxel_by_voxel (vx + o.1) (vy + o.2.1) (vz + o.2.2))
    let u := if is_mat_1 then uv_map (texture texAll)
             else if is_mat_3 then uv_map (texture face.mat3)
             else uv_map (texture face.mat6)
    let ndx : Int := (acc.positions.length : Int) / 3
    let corners := face.cornerList
    let positions := acc.positions ++ corners.flatMap (fun c =>
      [((c.pos.1 + vx : Int) : ℚ) * dimQ, ((c.pos.2.1 + vy : Int) : ℚ) * dimQ,
       ((c.pos.2.2 + vz : Int) : ℚ) * dimQ])
    let uvs := acc.uvs ++ corners.flatMap (fun c =>
      [c.uv.1 * (u.end_u - u.start_u) + u.start_u,
       c.uv.2 * (u.start_v - u.end_v) + u.end_v])
    let face_aos := corners.map (fun c =>
      AO_TABLE (vertex_ao reg (near.getD c.side1 0) (near.getD c.side2 0)
        (near.getD c.corner 0)) / 255)
    let a_t := torch_levels.getD (acc.i + 0) 0
    let b_t := torch_levels.getD (acc.i + 1) 0
    let c_t := torch_levels.getD (acc.i + 2) 0
    let d_t := torch_levels.getD (acc.i + 3) 0
    let flip := quad_flip (face_aos.getD 0 0) (face_aos.getD 1 0)
      (face_aos.getD 2 0) (face_aos.getD 3 0) a_t b_t c_t d_t
    let indices := acc.indices ++
      (if flip then [ndx, ndx + 1, ndx + 3, ndx + 3, ndx + 2, ndx]
       else [ndx, ndx + 1, ndx + 2, ndx + 2, ndx + 1, ndx + 3])
    let aos := acc.aos ++ face_aos
    some { positions := positions, indices := indices, uvs := uvs,
           aos := aos, i := acc.i + 4 }

/-- `Chunks::mesh_chunk` (chunks.rs lines 741-1252). -/
def Chunks.mesh_chunk (reg : Registry) (tables : FaceTables) (w : Chunks)
    (coords : Int × Int) (transparent : Bool) : Option (Option MeshType) := do
  let ch ← w.get_chunk coords
  let s := (w.metrics.chunk_size : Int)
  let sx := ch.cx * s
  let ex := (ch.cx + 1) * s
  let sy : Int := 0
  let ey : Int := (w.metrics.max_height : Int)
  let sz := ch.cz * s
  let ez := (ch.cz + 1) * s
  let dimQ : ℚ := (w.metrics.dimension : ℚ)
  let dimI : Int := (w.metrics.dimension : Int)
  let xs := intRangeEx sx ex
  let ys := intRangeEx sy (ch.top_y + 1)
  let zs := intRangeEx sz ez
  let faces ← mesh_scan reg tables w transparent xs ys zs
  let pa ← faces.foldlM (passA_face reg w sx sy sz ex ey ez dimQ dimI) ([], [])
  let sunlight_levels ← smooth_levels pa.1 pa.2 (fun v => v.sunlight)
  let torch_light_levels ← smooth_levels pa.1 pa.2 (fun v => v.torch_light)
  let pb ← faces.foldlM (passB_face reg w dimQ torch_light_levels)
    ⟨[], [], [], [], 0⟩
  if transparent && pb.indices.length == 0 then some none
  else some (some { positions := pb.positions, indices := pb.indices,
                    uvs := pb.uvs, aos := pb.aos,
                    sunlights := sunlight_levels,
                    torch_lights := torch_light_levels })

/-- The horizontal sunlight-spill seeding of `propagate_chunk`
(chunks.rs lines 450-468): for each cardinal neighbor that is transparent
and whose column height exceeds `vy`, enqueue the current voxel at full
level, deduplicating against the queue. -/
def propagate_sun_seed (reg : Registry) (w : Chunks) (vx vy vz : Int)
    (maxL : Nat) (sunQ : List LightNode) : Option (List LightNode) :=
  CHUNK_HORIZONTAL_NEIGHBORS.foldlM (fun sq o => do
    let nb ← Chunks.get_block_by_voxel reg w (vx + o.1) vy (vz + o.2)
    if !nb.is_transparent then some sq
    else do
      let h2 ← w.get_max_height (vx + o.1) (vz + o.2)
      if vy < h2 then
        (if sq.any (fun n =>
            n.voxel.1 == vx && n.voxel.2.1 == vy && n.voxel.2.2 == vz)
         then some sq
         else some (sq ++ [⟨(vx, vy, vz), maxL⟩]))
      else some sq) sunQ

/-- One voxel of the column scan of `propagate_chunk`
(chunks.rs lines 439-479). -/
def propagate_voxel (reg : Registry) (maxL : Nat) (vx vz : Int) (h : Int)
    (acc : Chunks × List LightNode × List LightNode) (vy : Int) :
    Option (Chunks × List LightNode × List LightNode) := do
  let w := acc.1
  let blk ← Chunks.get_block_by_voxel reg w vx vy vz
  let ws ← if h < vy && blk.is_transparent then do
      let w ← w.set_sunlight vx vy vz maxL
      let sq ← propagate_sun_seed reg w vx vy vz maxL acc.2.2
      some (w, sq)
    else some (w, acc.2.2)
  if blk.is_light then do
    let w ← ws.1.set_torch_light vx vy vz blk.light_level
    some (w, acc.2.1 ++ [⟨(vx, vy, vz), blk.light_level⟩], ws.2)
  else some (ws.1, acc.2.1, ws.2)

/-- One column of `propagate_chunk` (chunks.rs lines 436-479): read the
column height once, then scan `vy` top-down. -/
def propagate_column (reg : Registry) (maxL : Nat) (ysDesc : List Int)
    (acc : Chunks × List LightNode × List LightNode) (vx vz : Int) :
    Option (Chunks × List LightNode × List LightNode) := do
  let h ← acc.1.get_max_height vx vz
  ysDesc.foldlM (fun acc vy => propagate_voxel reg maxL vx vz h acc vy) acc

/-- `Chunks::propagate_chunk` (chunks.rs lines 421-485). -/
def Chunks.propagate_chunk (reg : Registry) (fuel : Nat) (w : Chunks)
    (coords : Int × Int) : Option Chunks := do
  let ch ← w.get_chunk coords
  let s := (w.metrics.chunk_size : Int)
  let sx := ch.cx * s
  let ex := (ch.cx + 1) * s
  let sz := ch.cz * s
  let ez := (ch.cz + 1) * s
  let w ← w.modify_chunk coords (fun c =>
    { c with needs_propagation := false, needs_saving := true })
  let maxL := w.metrics.max_light_level
  let ysDesc := (intRangeEx 0 (w.metrics.max_height : Int)).reverse
  let acc ← (intRangeEx sz ez).foldlM (fun acc vz =>
    (intRangeEx sx ex).foldlM (fun acc vx =>
      propagate_column reg maxL ysDesc acc vx vz) acc) (w, ([], []))
  let w ← Chunks.flood_light reg fuel acc.1 acc.2.1 false
  Chunks.flood_light reg fuel w acc.2.2 true

/-- `Chunks::remesh_chunk` (chunks.rs lines 122-153): return early unless
dirty; propagate this chunk and any of the 8 `CHUNK_NEIGHBORS` that still
need propagation (`get_chunk(..).unwrap()` — a panic, `none` here, when a
neighbor is absent); then build and store both meshes and clear the dirty
flag. -/
def Chunks.remesh_chunk (reg : Registry) (tables : FaceTables) (fuel : Nat)
    (w : Chunks) (coords : Int × Int) : Option Chunks := do
  let ch ← w.get_chunk coords
  if !ch.is_dirty then some w
  else do
    let w ← if ch.needs_propagation then
              Chunks.propagate_chunk reg fuel w coords
            else some w
    let w ← CHUNK_NEIGHBORS.foldlM (fun w o => do
      let nc := (coords.1 + o.1, coords.2 + o.2)
      let n ← w.get_chunk nc
      if n.needs_propagation then Chunks.propagate_chunk reg fuel w nc
      else some w) w
    let opq ← Chunks.mesh_chunk reg tables w coords false
    let trs ← Chunks.mesh_chunk reg tables w coords true
    w.modify_chunk coords (fun c =>
      { c with meshes := ⟨opq, trs⟩, is_dirty := false })

/-- `Chunks::get` (chunks.rs lines 76-99): return the chunk only when it is
present, terrain-generated, decorated, and every chunk in `neighbors()` is
present and decorated; when it qualifies, remesh (if dirty) before
returning.  The `getD false` stands for the source's
`neighbors.iter().any(|&c| c.unwrap().needs_decoration)`, which the
preceding `is_none` disjunct protects by short-circuit. -/
def Chunks.get (reg : Registry) (tables : FaceTables) (fuel : Nat)
    (w : Chunks) (coords : Int × Int) : Option (Chunks × Option Chunk) :=
  let chunk := w.get_chunk coords
  let nbs := w.neighbors coords
  match chunk with
  | none => some (w, none)
  | some ch =>
    if ch.needs_terrain || ch.needs_decoration
        || nbs.any (fun c => c.isNone)
        || nbs.any (fun c => (c.map (fun n => n.needs_decoration)).getD false)
    then some (w, none)
    else do
      let w' ← Chunks.remesh_chunk reg tables fuel w coords
      some (w', w'.get_chunk coords)

/-- `Chunks::generate` (chunks.rs lines 107-114): load around a center. -/
def Chunks.generate (reg : Registry) (w : Chunks) (coords : Int × Int)
    (render_radius : Int) : Option (Chunks × List LoadEvent) :=
  Chunks.load reg w coords render_radius

/-- The height-map invariant of claim C5 as stated (spec §8): the stored
height of a column is the maximum `y` whose voxel is neither air nor plant,
or 0 if there is none. -/
def column_height_plant_ok (reg : Registry) (H : Nat) (colvox : Nat → Nat)
    (h : Int) : Prop :=
  0 ≤ h ∧ h < (H : Int)
  ∧ (h = 0 ∨ (reg.is_air (colvox h.toNat) = false
              ∧ reg.is_plant (colvox h.toNat) = false))
  ∧ ∀ y : Nat, y < H → h < (y : Int) →
      (reg.is_air (colvox y) = true ∨ reg.is_plant (colvox y) = true)

/-- The plant-free height-map invariant that `update`'s maintenance actually
preserves: the stored height of a column is the maximum `y` whose voxel is
not air, or 0 if there is none. -/
def column_height_air_ok (reg : Registry) (H : Nat) (colvox : Nat → Nat)
    (h : Int) : Prop :=
  0 ≤ h ∧ h < (H : Int)
  ∧ (h = 0 ∨ reg.is_air (colvox h.toNat) = false)
  ∧ ∀ y : Nat, y < H → h < (y : Int) → reg.is_air (colvox y) = true

/-- Claim C5's invariant over every column of a chunk. -/
def chunk_heights_plant_ok (reg : Registry) (S H : Nat) (ch : Chunk) : Prop :=
  ∀ lx : Nat, lx < S → ∀ lz : Nat, lz < S →
    column_height_plant_ok reg H (fun y => ch.vox lx y lz) (ch.hmap lx lz)

/-- The plant-free invariant over every column of a chunk. -/
def chunk_heights_air_ok (reg : Registry) (S H : Nat) (ch : Chunk) : Prop :=
  ∀ lx : Nat, lx < S → ∀ lz : Nat, lz < S →
    column_height_air_ok reg H (fun y => ch.vox lx y lz) (ch.hmap lx lz)

/-- Claim C5's invariant over every chunk of the container. -/
def world_heights_plant_ok (reg : Registry) (w : Chunks) : Prop :=
  ∀ p ∈ w.chunks,
    chunk_heights_plant_ok reg w.metrics.chunk_size w.metrics.max_height p.2

/-- The plant-free invariant over every chunk of the container. -/
def world_heights_air_ok (reg : Registry) (w : Chunks) : Prop :=
  ∀ p ∈ w.chunks,
    chunk_heights_air_ok reg w.metrics.chunk_size w.metrics.max_height p.2

/-- A column with one entry overwritten (the effect of a voxel write on
its own column). -/
def setCol (col : Nat → Nat) (ly0 id y : Nat) : Nat :=
  if y = ly0 then id else col y

/-- Decidability of the column invariant (for concrete evaluation). -/
instance column_height_plant_ok_dec (reg : Registry) (H : Nat)
    (col : Nat → Nat) (h : Int) :
    Decidable (column_height_plant_ok reg H col h) := by
  unfold column_height_plant_ok
  infer_instance

/-- Decidability of the column invariant (for concrete evaluation). -/
instance column_height_air_ok_dec (reg : Registry) (H : Nat)
    (col : Nat → Nat) (h : Int) :
    Decidable (column_height_air_ok reg H col h) := by
  unfold column_height_air_ok
  infer_instance

/-- Decidability of the chunk invariant. -/
instance chunk_heights_plant_ok_dec (reg : Registry) (S H : Nat) (ch : Chunk) :
    Decidable (chunk_heights_plant_ok reg S H ch) := by
  unfold chunk_heights_plant_ok
  infer_instance

/-- Decidability of the chunk invariant. -/
instance chunk_heights_air_ok_dec (reg : Registry) (S H : Nat) (ch : Chunk) :
    Decidable (chunk_heights_air_ok reg S H ch) := by
  unfold chunk_heights_air_ok
  infer_instance

/-- Decidability of the container invariant. -/
instance world_heights_plant_ok_dec (reg : Registry) (w : Chunks) :
    Decidable (world_heights_plant_ok reg w) := by
  unfold world_heights_plant_ok
  infer_instance

/-- Decidability of the container invariant. -/
instance world_heights_air_ok_dec (reg : Registry) (w : Chunks) :
    Decidable (world_heights_air_ok reg w) := by
  unfold world_heights_air_ok
  infer_instance

/-- Air: not solid, transparent, empty. -/
def airB : Block := ⟨false, true, false, false, false, true, false, 0⟩

/-- Stone: solid opaque block. -/
def stoneB : Block := ⟨true, false, true, false, false, false, false, 0⟩

/-- Torch: a transparent light emitter of level 5. -/
def torchB : Block := ⟨false, true, false, false, true, false, false, 5⟩

/-- A plant block: transparent, `is_plant`. -/
def plantB : Block := ⟨false, true, false, true, false, false, false, 0⟩

/-- A small concrete registry for the example worlds: id 0 is air, id 1 is
stone, id 3 a torch, id 4 a plant. -/
def regT : Registry :=
  { get_block_by_id := fun id =>
      if id == 1 then stoneB
      else if id == 3 then torchB
      else if id == 4 then plantB
      else airB,
    is_air := fun id => id == 0,
    is_plant := fun id => id == 4,
    get_texture_by_id := fun _ => fun _ => texAll,
    get_uv_by_id := fun _ => fun _ => ⟨0, 1, 0, 1⟩,
    texture_type_of_id := fun _ => mat1Name,
    type_map := fun s => if s == stoneName then 1 else 2 }

/-- Empty face tables (the claims hold for arbitrary tables). -/
def tablesEmpty : FaceTables := ⟨[], []⟩

/-- A chunk for the C4 example: stone at local (0,3,0) in a 2×4×2 chunk. -/
def chC4 : Chunk :=
  { Chunk.new (0, 0) with
    vox := fun a b c => if a == 0 && b == 3 && c == 0 then 1 else 0 }

/-- The C4 example world: `chunk_size = 2`, `max_height = 4`. -/
def wC4 : Chunks := ⟨⟨2, 4, 15, 1⟩, [((0, 0), chC4)]⟩

/-- A fully ready, clean chunk (for the C1 example world). -/
def readyChunk (c : Int × Int) : Chunk :=
  { Chunk.new c with
    needs_terrain := false, needs_decoration := false,
    needs_propagation := false, is_dirty := false }

/-- The C1 example world: the chunk at (0,0) plus exactly the five
neighbors the source's `neighbors()` inspects; (0,1), (-1,1), (1,1) are
absent. -/
def wC1 : Chunks :=
  ⟨⟨1, 1, 15, 1⟩,
    [((0, 0), readyChunk (0, 0)),
     ((-1, -1), readyChunk (-1, -1)),
     ((-1, 0), readyChunk (-1, 0)),
     ((0, -1), readyChunk (0, -1)),
     ((1, -1), readyChunk (1, -1)),
     ((1, 0), readyChunk (1, 0))]⟩

/-- A 1×4×1 chunk with stone at the bottom, height 0, not yet propagated
(for the C5 examples). -/
def chP : Chunk :=
  { Chunk.new (0, 0) with
    vox := fun a b c => if a == 0 && b == 0 && c == 0 then 1 else 0 }

/-- The C5 example world. -/
def wP : Chunks := ⟨⟨1, 4, 15, 1⟩, [((0, 0), chP)]⟩

/-- A 3×3×3 propagated chunk of stone with a torch block at local (1,1,1)
whose stored torch light is 0 (for the C10 counterexample). -/
def chT : Chunk :=
  { Chunk.new (0, 0) with
    vox := fun a b c => if a == 1 && b == 1 && c == 1 then 3 else 1,
    hmap := fun _ _ => 2,
    needs_propagation := false }

/-- The C10 counterexample world (torch part). -/
def wT : Chunks := ⟨⟨3, 3, 15, 1⟩, [((0, 0), chT)]⟩

/-- A 1×4×1 all-air chunk whose stored height 3 violates the height
invariant (for the C10 counterexample, height part). -/
def chT2 : Chunk := { Chunk.new (0, 0) with hmap := fun _ _ => 3 }

/-- The C10 counterexample world (height part). -/
def wT2 : Chunks := ⟨⟨1, 4, 15, 1⟩, [((0, 0), chT2)]⟩

/-- An empty world with tiny metrics (for the C7 witness). -/
def wEmpty : Chunks := ⟨⟨1, 1, 15, 1⟩, []⟩

/-- Two containers agree on everything except the lifecycle flags and
`top_y`: same metrics, and per coordinate the same voxels, light fields,
height map, meshes and position. -/
def core_eq (w w2 : Chunks) : Prop :=
  w2.metrics = w.metrics
  ∧ ∀ c, (w2.get_chunk c).map
        (fun ch => (ch.vox, ch.sun, ch.torch, ch.hmap, ch.meshes, ch.cx, ch.cz))
      = (w.get_chunk c).map
        (fun ch => (ch.vox, ch.sun, ch.torch, ch.hmap, ch.meshes, ch.cx, ch.cz))

/-- The running shape invariant of pass B: after `k` emitted faces the
buffers hold `12k` position floats, `8k` uv floats, `4k` AO values, `6k`
indices all in `[0, 4k)`, and the vertex counter is `4k`. -/
def mesh_acc_ok (acc : MeshAcc) (k : Nat) : Prop :=
  acc.positions.length = 12 * k ∧ acc.uvs.length = 8 * k
  ∧ acc.aos.length = 4 * k ∧ acc.indices.length = 6 * k ∧ acc.i = 4 * k
  ∧ ∀ j ∈ acc.indices, 0 ≤ j ∧ j < ((4 * k : Nat) : Int)

/-- C2: in `flood_light`, the level written to and enqueued for a neighbor
is `level - 1`, except exactly under the no-decay condition
`is_sunlight ∧ oy = −1 ∧ level = max_light_level`, where it is `level`;
and the zero-branch condition of `remove_light` is, for any stored light
value `nl ≤ max_light_level`, exactly `nl < level ∨` that same no-decay
condition. -/
theorem c2_flood_decay_and_removal_fall (is_sunlight : Bool) (oy : Int)
    (level maxL nl : Nat) (h1 : 1 ≤ level) (h2 : level < 2 ^ 32)
    (h3 : nl ≤ maxL) :
    (flood_nl is_sunlight oy level maxL =
      if is_sunlight = true ∧ oy = -1 ∧ level = maxL then level
      else level - 1)
    ∧ (sunlight_drop is_sunlight oy level maxL = true ↔
        (is_sunlight = true ∧ oy = -1 ∧ level = maxL))
    ∧ (remove_zero_cond is_sunlight oy level nl maxL = true ↔
        (nl < level ∨ (is_sunlight = true ∧ oy = -1 ∧ level = maxL))) := by
  have hsd : sunlight_drop is_sunlight oy level maxL = true ↔
      (is_sunlight = true ∧ oy = -1 ∧ level = maxL) := by
    simp [sunlight_drop, Bool.and_eq_true, and_assoc]
  refine ⟨?_, hsd, ?_⟩
  · by_cases h : is_sunlight = true ∧ oy = -1 ∧ level = maxL
    · rw [if_pos h, flood_nl, if_pos (hsd.mpr h)]
    · rw [if_neg h, flood_nl, if_neg (fun hb => h (hsd.mp hb))]
      omega
  · simp only [remove_zero_cond, Bool.or_eq_true, Bool.and_eq_true,
      decide_eq_true_eq, beq_iff_eq]
    constructor
    · rintro (h | ⟨⟨⟨hs, ho⟩, hl⟩, _⟩)
      · exact Or.inl h
      · exact Or.inr ⟨hs, ho, hl⟩
    · rintro (h | ⟨hs, ho, hl⟩)
      · exact Or.inl h
      · rcases Nat.lt_or_ge nl level with hlt | hge
        · exact Or.inl hlt
        · exact Or.inr ⟨⟨⟨hs, ho⟩, hl⟩, by omega⟩

/-- Witness for C2 at `is_sunlight = true`, `oy = -1`,
`level = max_light_level = 15`, `nl = 14`. -/
theorem c2_flood_decay_witness :
    flood_nl true (-1) 15 15 = 15
    ∧ (remove_zero_cond true (-1) 15 14 15 = true ↔
        (14 < 15 ∨ ((true : Bool) = true ∧ (-1 : Int) = -1 ∧ (15 : Nat) = 15))) := by
  have h := c2_flood_decay_and_removal_fall true (-1) 15 15 14
    (by decide) (by norm_num) (by decide)
  refine ⟨?_, h.2.2⟩
  rw [h.1]
  simp

/-- C3 counterexample: a removal-BFS neighbor with `nl = 5`, `level = 5`,
`is_sunlight`, `oy = -1`, `max_light_level = 15` has nonzero light,
satisfies `nl ≥ level`, is not the sunlight-fall case — yet the source
skips it instead of pushing it onto the refill queue (the extra guard
`!is_sunlight || oy != -1 || nl > level` at chunks.rs line 609). -/
theorem c3_refill_counterexample :
    removal_action true (-1) 5 5 15 = RemovalAction.skipN
    ∧ (5 : Nat) ≠ 0 ∧ (5 : Nat) ≤ 5
    ∧ ¬((true : Bool) = true ∧ (-1 : Int) = -1 ∧ (5 : Nat) = 15
        ∧ (5 : Nat) = 15) := by decide

/-- C3 (amended): a visited neighbor with nonzero `nl ≥ level` outside the
sunlight-fall case is pushed onto the refill queue **unless**
`is_sunlight ∧ oy = −1 ∧ nl = level`; and `remove_light` always runs
`flood_light` on the accumulated refill queue with the same `is_sunlight`
flag after the removal BFS. -/
theorem c3_refill_rule (is_sunlight : Bool) (oy : Int) (level nl maxL : Nat)
    (hnz : nl ≠ 0) (hge : level ≤ nl)
    (hfall : ¬(is_sunlight = true ∧ oy = -1 ∧ level = maxL ∧ nl = maxL))
    (hextra : ¬(is_sunlight = true ∧ oy = -1 ∧ nl = level)) :
    removal_action is_sunlight oy level nl maxL = RemovalAction.refill
    ∧ ∀ (reg : Registry) (fuel : Nat) (w : Chunks) (vx vy vz : Int) (b : Bool),
        Chunks.remove_light reg fuel w vx vy vz b =
          (Chunks.remove_removal_phase fuel w vx vy vz b).bind
            (fun st => Chunks.flood_light reg fuel st.1 st.2 b) := by
  constructor
  · have h0 : (nl == 0) = false := by simp [hnz]
    have hzc : remove_zero_cond is_sunlight oy level nl maxL = false := by
      rw [Bool.eq_false_iff]
      intro hzc
      rw [remove_zero_cond, Bool.or_eq_true] at hzc
      rcases hzc with hlt | hq
      · simp only [decide_eq_true_eq] at hlt
        omega
      · simp only [Bool.and_eq_true, beq_iff_eq] at hq
        exact hfall ⟨hq.1.1.1, hq.1.1.2, hq.1.2, hq.2⟩
    have hrc : remove_refill_cond is_sunlight oy level nl = true := by
      rw [remove_refill_cond]
      cases hs : is_sunlight
      · simp
      · by_cases ho : oy = -1
        · have hne : nl ≠ level := fun h => hextra ⟨hs, ho, h⟩
          have hlt : level < nl := by omega
          simp [hlt]
        · simp [bne_iff_ne, ho]
    rw [removal_action, h0, if_neg (by simp), hzc, if_neg (by simp),
      if_pos hge, hrc, if_pos rfl]
  · intro reg fuel w vx vy vz b
    rfl

/-- Witness for C3 (amended) at `is_sunlight = true`, `oy = -1`,
`level = 3`, `nl = 5`, `max_light_level = 15`. -/
theorem c3_refill_witness :
    removal_action true (-1) 3 5 15 = RemovalAction.refill :=
  (c3_refill_rule true (-1) 3 5 15 (by decide) (by decide) (by decide)
    (by decide)).1

/-- C6 counterexample: with `max_height = 4`, the upward neighbor of a node
at `vy = 3 = max_height - 1` passes `flood_light`'s skip check, yet its
access row `vy + oy = 4` is outside the arrays' valid rows
`[0, max_height - 1] = [0, 3]`. -/
theorem c6_skip_bound_counterexample :
    ((0, 1, 0) : Int × Int × Int) ∈ VOXEL_NEIGHBORS
    ∧ flood_y_skip (3 + 1) 4 = false
    ∧ ¬((3 : Int) + 1 ≤ 4 - 1) := by decide

/-- C6 (amended): in `flood_light` a neighbor is skipped exactly when
`vy + oy` leaves `[0, max_height]`; consequently every surviving neighbor
access has its y coordinate inside `[0, max_height]` — one row beyond the
last valid array row `max_height - 1` (which `remove_light`'s stricter
bound `vy + oy < max_height` does exclude). -/
theorem c6_skip_bound (vy oy maxH : Int)
    (hns : flood_y_skip (vy + oy) maxH = false) :
    (∀ n : Int, flood_y_skip n maxH = true ↔ (n < 0 ∨ maxH < n))
    ∧ 0 ≤ vy + oy ∧ vy + oy ≤ maxH := by
  have hiff : ∀ n : Int, flood_y_skip n maxH = true ↔ (n < 0 ∨ maxH < n) := by
    intro n
    simp [flood_y_skip, Bool.or_eq_true, decide_eq_true_eq]
  have hn : ¬(vy + oy < 0 ∨ maxH < vy + oy) := by
    intro hcon
    rw [← hiff (vy + oy)] at hcon
    rw [hns] at hcon
    exact Bool.false_ne_true hcon
  exact ⟨hiff, by omega, by omega⟩

/-- Witness for C6 (amended) at `vy = 2`, `oy = 1`, `max_height = 4`. -/
theorem c6_skip_bound_witness :
    (∀ n : Int, flood_y_skip n 4 = true ↔ (n < 0 ∨ 4 < n))
    ∧ (0 : Int) ≤ 2 + 1 ∧ (2 : Int) + 1 ≤ 4 :=
  c6_skip_bound 2 1 4 (by decide)

/-- C9: the mesher flips a quad's winding exactly under
`a0+a3 > a1+a2`, or `t0+t3 < t1+t2` with equal AO diagonals, or some
corner torch level ≤ 0 together with the mid-value straddle
`t1 > (t0+t3)/2 > t2` or `t2 > (t0+t3)/2 > t1`. -/
theorem c9_quad_flip_rule (a0 a1 a2 a3 : ℚ) (t0 t1 t2 t3 : Int) :
    quad_flip a0 a1 a2 a3 t0 t1 t2 t3 = true ↔
      (a1 + a2 < a0 + a3
       ∨ (t0 + t3 < t1 + t2 ∧ a0 + a3 = a1 + a2)
       ∨ ((t0 ≤ 0 ∨ t1 ≤ 0 ∨ t2 ≤ 0 ∨ t3 ≤ 0)
          ∧ ((((t0 + t3 : Int) : ℚ) / 2 < (t1 : ℚ)
              ∧ (t2 : ℚ) < ((t0 + t3 : Int) : ℚ) / 2)
             ∨ (((t0 + t3 : Int) : ℚ) / 2 < (t2 : ℚ)
                ∧ (t1 : ℚ) < ((t0 + t3 : Int) : ℚ) / 2)))) := by
  simp only [quad_flip, Bool.or_eq_true, Bool.and_eq_true, decide_eq_true_eq]
  tauto

/-- C4: evaluation at a failing input.  With `chunk_size = 2`,
`max_height = 4` and a single stone voxel at local (0,3,0), the source's
height-map build (whose scan bound is `metrics.chunk_size`, chunks.rs line
392, and whose top-y bump is conditional on `top_y < ly`) yields height 0
and `top_y` 0 for that column, while the build described by the claim
(scan from `max_height - 1`, `top_y = max(top_y, ly + 3)`) yields 3 and 6. -/
theorem c4_height_map_scan_bug :
    wC4.metrics.chunk_size = 2 ∧ wC4.metrics.max_height = 4
    ∧ ((Chunks.generate_chunk_height_map regT wC4 (0, 0)).map
        (fun w => (w.get_chunk (0, 0)).map (fun ch => (ch.hmap 0 0, ch.top_y))))
      = some (some ((0 : Int), (0 : Int)))
    ∧ ((generate_chunk_height_map_claim regT wC4 (0, 0)).map
        (fun w => (w.get_chunk (0, 0)).map (fun ch => (ch.hmap 0 0, ch.top_y))))
      = some (some ((3 : Int), (6 : Int))) := by decide

/-- C1: evaluation at a failing input.  In `wC1` the chunk at (0,1) — one
of the 8 horizontal neighbors of (0,0) — is absent, yet `get` returns the
chunk at (0,0), because `neighbors()` iterates `z ∈ -1..1` and therefore
checks only 5 of the 8 neighbors. -/
theorem c1_get_neighbors_bug :
    ((Chunks.get regT tablesEmpty 1 wC1 (0, 0)).map (fun p => p.2.isSome))
      = some true
    ∧ (wC1.get_chunk (0, 1)).isNone = true
    ∧ ((0, 1) : Int × Int) ∈ CHUNK_NEIGHBORS
    ∧ (wC1.neighbors (0, 0)).length = 5 := by decide

/-- Membership in an inclusive integer range. -/
theorem mem_intRange {lo hi a : Int} :
    a ∈ intRange lo hi ↔ lo ≤ a ∧ a ≤ hi := by
  simp only [intRange, List.mem_map, List.mem_range]
  constructor
  · rintro ⟨i, hilt, rfl⟩
    omega
  · rintro ⟨h1, h2⟩
    exact ⟨(a - lo).toNat, by omega, by omega⟩

/-- Membership in the `load` offset enumeration. -/
theorem mem_load_offsets {tr : Int} {p : Int × Int} :
    p ∈ load_offsets tr ↔
      (-tr ≤ p.1 ∧ p.1 ≤ tr ∧ -tr ≤ p.2 ∧ p.2 ≤ tr) := by
  rcases p with ⟨x, z⟩
  simp only [load_offsets, List.mem_flatMap, List.mem_map]
  constructor
  · rintro ⟨a, ha, b, hb, h⟩
    obtain ⟨rfl, rfl⟩ : x = a ∧ z = b := by
      injection h.symm with h1 h2
      exact ⟨h1, h2⟩
    have h1 := mem_intRange.mp ha
    have h2 := mem_intRange.mp hb
    exact ⟨h1.1, h1.2, h2.1, h2.2⟩
  · rintro ⟨h1, h2, h3, h4⟩
    exact ⟨x, mem_intRange.mpr ⟨h1, h2⟩, z, mem_intRange.mpr ⟨h3, h4⟩, rfl⟩

/-- A square bound on an integer bounds the integer. -/
theorem abs_le_of_sq_le {x t : Int} (ht : 0 ≤ t) (h : x * x ≤ t * t) :
    -t ≤ x ∧ x ≤ t := by
  constructor <;> nlinarith

/-- The coordinates `load` stages for generation are exactly the missing
chunks in the open terrain disk. -/
theorem mem_to_generate {w : Chunks} {center : Int × Int} {tr : Int}
    {c : Int × Int} (htr : 0 ≤ tr) :
    c ∈ to_generate_coords w center tr ↔
      ((w.get_chunk c).isNone = true ∧ ∃ x z : Int,
        x * x + z * z < tr * tr ∧ c = (center.1 + x, center.2 + z)) := by
  simp only [to_generate_coords, List.mem_map, List.mem_filter,
    Bool.and_eq_true, decide_eq_true_eq]
  constructor
  · rintro ⟨⟨x, z⟩, ⟨_, hdist, hmiss⟩, rfl⟩
    exact ⟨hmiss, x, z, hdist, rfl⟩
  · rintro ⟨hmiss, x, z, hdist, rfl⟩
    have hx : -tr ≤ x ∧ x ≤ tr := abs_le_of_sq_le htr (by nlinarith)
    have hz : -tr ≤ z ∧ z ≤ tr := abs_le_of_sq_le htr (by nlinarith)
    exact ⟨(x, z),
      ⟨mem_load_offsets.mpr ⟨hx.1, hx.2, hz.1, hz.2⟩, hdist, hmiss⟩, rfl⟩

/-- The coordinates `load` stages for decoration are exactly the closed
decorate disk (the open terrain-disk filter never cuts it, since
`dr < tr`). -/
theorem mem_to_decorate {center : Int × Int} {tr dr : Int} {c : Int × Int}
    (hdr : 0 ≤ dr) (hlt : dr < tr) :
    c ∈ to_decorate_coords center tr dr ↔
      ∃ x z : Int, x * x + z * z ≤ dr * dr
        ∧ c = (center.1 + x, center.2 + z) := by
  simp only [to_decorate_coords, List.mem_map, List.mem_filter,
    Bool.and_eq_true, decide_eq_true_eq]
  constructor
  · rintro ⟨⟨x, z⟩, ⟨_, _, hdist⟩, rfl⟩
    exact ⟨x, z, hdist, rfl⟩
  · rintro ⟨x, z, hdist, rfl⟩
    have htr : 0 ≤ tr := by omega
    have hx : -dr ≤ x ∧ x ≤ dr := abs_le_of_sq_le hdr (by nlinarith)
    have hz : -dr ≤ z ∧ z ≤ dr := abs_le_of_sq_le hdr (by nlinarith)
    refine ⟨(x, z),
      ⟨mem_load_offsets.mpr ⟨by omega, by omega, by omega, by omega⟩,
       by nlinarith, hdist⟩, rfl⟩

/-- C7: `load(center, R)` stages, generates and inserts exactly the missing
chunks with offset distance² < (R+4)², then decorates exactly the offsets
with distance² ≤ R², then builds height maps for those same coordinates;
and its trace is three consecutive phases — all generation/insertion events,
then all decoration events, then all height-map events. -/
theorem c7_load_phases (w : Chunks) (center : Int × Int) (rr : Int)
    (hrr : 0 ≤ rr) :
    (∀ (reg : Registry) (wl : Chunks × List LoadEvent),
        Chunks.load reg w center rr = some wl →
        wl.2 = load_trace w center rr)
    ∧ (∀ c, LoadEvent.gen c ∈ load_trace w center rr ↔
        ((w.get_chunk c).isNone = true ∧ ∃ x z : Int,
          x * x + z * z < (rr + 4) * (rr + 4)
          ∧ c = (center.1 + x, center.2 + z)))
    ∧ (∀ c, LoadEvent.dec c ∈ load_trace w center rr ↔
        ∃ x z : Int, x * x + z * z ≤ rr * rr
          ∧ c = (center.1 + x, center.2 + z))
    ∧ (∀ c, LoadEvent.hm c ∈ load_trace w center rr ↔
        LoadEvent.dec c ∈ load_trace w center rr)
    ∧ ∃ l1 l2 l3 : List LoadEvent,
        load_trace w center rr = l1 ++ l2 ++ l3
        ∧ (∀ e ∈ l1, ∃ c, e = LoadEvent.gen c ∨ e = LoadEvent.ins c)
        ∧ (∀ e ∈ l2, ∃ c, e = LoadEvent.dec c)
        ∧ (∀ e ∈ l3, ∃ c, e = LoadEvent.hm c) := by
  refine ⟨?_, ?_, ?_, ?_, ?_⟩
  · intro reg wl hl
    simp only [Chunks.load, Option.bind_eq_bind, Option.bind_eq_some] at hl
    rcases hl with ⟨w1, h1, w2, h2, h3⟩
    cases h3
    rfl
  · intro c
    have : LoadEvent.gen c ∈ load_trace w center rr ↔
        c ∈ to_generate_coords w center (rr + 4) := by
      simp [load_trace, List.mem_append, List.mem_map]
    rw [this, mem_to_generate (by omega)]
  · intro c
    have : LoadEvent.dec c ∈ load_trace w center rr ↔
        c ∈ to_decorate_coords center (rr + 4) rr := by
      simp [load_trace, List.mem_append, List.mem_map]
    rw [this, mem_to_decorate hrr (by omega)]
  · intro c
    have h1 : LoadEvent.hm c ∈ load_trace w center rr ↔
        c ∈ to_decorate_coords center (rr + 4) rr := by
      simp [load_trace, List.mem_append, List.mem_map]
    have h2 : LoadEvent.dec c ∈ load_trace w center rr ↔
        c ∈ to_decorate_coords center (rr + 4) rr := by
      simp [load_trace, List.mem_append, List.mem_map]
    rw [h1, h2]
  · refine ⟨(to_generate_coords w center (rr + 4)).map .gen
        ++ (to_generate_coords w center (rr + 4)).map .ins,
      (to_decorate_coords center (rr + 4) rr).map .dec,
      (to_decorate_coords center (rr + 4) rr).map .hm, ?_, ?_, ?_, ?_⟩
    · simp [load_trace, List.append_assoc]
    · intro e he
      rcases List.mem_append.mp he with h | h <;>
        rcases List.mem_map.mp h with ⟨c, _, rfl⟩
      · exact ⟨c, Or.inl rfl⟩
      · exact ⟨c, Or.inr rfl⟩
    · intro e he
      rcases List.mem_map.mp he with ⟨c, _, rfl⟩
      exact ⟨c, rfl⟩
    · intro e he
      rcases List.mem_map.mp he with ⟨c, _, rfl⟩
      exact ⟨c, rfl⟩

/-- Witness for C7 at the empty world, center (0,0), radius 0. -/
theorem c7_load_phases_witness :
    (∀ c, LoadEvent.dec c ∈ load_trace wEmpty (0, 0) 0 ↔
      ∃ x z : Int, x * x + z * z ≤ 0 * 0 ∧ c = ((0 : Int) + x, (0 : Int) + z))
    ∧ (∀ c, LoadEvent.hm c ∈ load_trace wEmpty (0, 0) 0 ↔
        LoadEvent.dec c ∈ load_trace wEmpty (0, 0) 0) := by
  have h := c7_load_phases wEmpty (0, 0) 0 (by decide)
  exact ⟨h.2.2.1, h.2.2.2.1⟩

/-- A monadic fold whose every step raises a measure by `d` raises it by
`d · length`. -/
theorem foldlM_measure {σ α : Type _} (μ : σ → Nat) (d : Nat)
    (step : σ → α → Option σ)
    (hstep : ∀ s a s', step s a = some s' → μ s' = μ s + d) :
    ∀ (l : List α) (s s' : σ), List.foldlM step s l = some s' →
      μ s' = μ s + d * l.length := by
  intro l
  induction l with
  | nil =>
    intro s s' h
    simp only [List.foldlM_nil] at h
    cases h
    simp
  | cons a t ih =>
    intro s s' h
    rw [List.foldlM_cons] at h
    rcases Option.bind_eq_some.mp h with ⟨s1, h1, h2⟩
    have ha := hstep s a s1 h1
    have hb := ih s1 s' h2
    simp only [List.length_cons]
    rw [Nat.mul_add, Nat.mul_one]
    omega

/-- Each pass-A block corner appends exactly one smoothing reference. -/
theorem passA_block_corner_reps_len (reg : Registry) (w : Chunks)
    (sx sy sz ex ey ez dimI vx vy vz nvx nvy nvz : Int) (tl sl : Nat)
    (acc acc' : VMap × List VKey) (c : CornerData)
    (h : passA_block_corner reg w sx sy sz ex ey ez dimI vx vy vz
          nvx nvy nvz tl sl acc c = some acc') :
    acc'.2.length = acc.2.length + 1 := by
  rw [passA_block_corner] at h
  rcases Option.bind_eq_some.mp h with ⟨m', _, h2⟩
  cases h2
  simp

/-- Each pass-A face appends exactly four smoothing references. -/
theorem passA_face_reps_len (reg : Registry) (w : Chunks)
    (sx sy sz ex ey ez : Int) (dimQ : ℚ) (dimI : Int)
    (acc acc' : VMap × List VKey) (f : EmittedFace)
    (h : passA_face reg w sx sy sz ex ey ez dimQ dimI acc f = some acc') :
    acc'.2.length = acc.2.length + 4 := by
  cases f with
  | plant vx vy vz id face =>
    rw [passA_face] at h
    rcases Option.bind_eq_some.mp h with ⟨tl, _, h2⟩
    rcases Option.bind_eq_some.mp h2 with ⟨sl, _, h3⟩
    cases h3
    simp [PlantFace.cornerList]
  | block vx vy vz id face =>
    rw [passA_face] at h
    rcases Option.bind_eq_some.mp h with ⟨tl, _, h2⟩
    rcases Option.bind_eq_some.mp h2 with ⟨sl, _, h3⟩
    have hcl : (BlockFace.cornerList face).length = 4 := by
      simp [BlockFace.cornerList]
    have hlen := foldlM_measure (fun p => p.2.length) 1 _
      (fun s a s' hs =>
        passA_block_corner_reps_len reg w sx sy sz ex ey ez dimI vx vy vz
          (vx + face.dir.1) (vy + face.dir.2.1) (vz + face.dir.2.2)
          tl sl s s' a hs)
      (BlockFace.cornerList face) acc acc' h3
    dsimp only at hlen
    omega

/-- The smoothing pass yields one level per reference. -/
theorem smooth_levels_length (m : VMap) :
    ∀ (reps : List VKey) (pick : VertexLight → Nat) (out : List Int),
      smooth_levels m reps pick = some out → out.length = reps.length := by
  intro reps
  induction reps with
  | nil =>
    intro pick out h
    rw [smooth_levels] at h
    cases h
    rfl
  | cons k rest ih =>
    intro pick out h
    rw [smooth_levels] at h
    rcases Option.bind_eq_some.mp h with ⟨v, _, h2⟩
    rcases Option.bind_eq_some.mp h2 with ⟨tail, htail, h3⟩
    cases h3
    simp [ih _ _ htail]

/-- Both windings of a quad reference only the four vertices starting at
`n`. -/
theorem winding_mem_bound (b : Bool) (n j : Int)
    (h : j ∈ (if b then [n, n + 1, n + 3, n + 3, n + 2, n]
              else [n, n + 1, n + 2, n + 2, n + 1, n + 3])) :
    n ≤ j ∧ j ≤ n + 3 := by
  cases b
  · rw [if_neg (by simp)] at h
    fin_cases h <;> constructor <;> omega
  · rw [if_pos rfl] at h
    fin_cases h <;> constructor <;> omega

/-- Both windings of a quad have six indices. -/
theorem winding_length (b : Bool) (n : Int) :
    (if b then [n, n + 1, n + 3, n + 3, n + 2, n]
     else [n, n + 1, n + 2, n + 2, n + 1, n + 3]).length = 6 := by
  cases b <;> simp

/-- One pass-B face preserves the buffer-shape invariant, advancing the
face count by one. -/
theorem passB_face_ok (reg : Registry) (w : Chunks) (dimQ : ℚ)
    (tl : List Int) (acc acc' : MeshAcc) (f : EmittedFace) (k : Nat)
    (h : passB_face reg w dimQ tl acc f = some acc')
    (hk : mesh_acc_ok acc k) : mesh_acc_ok acc' (k + 1) := by
  obtain ⟨hp, hu, ha, hi, hii, hb⟩ := hk
  have hndx : (acc.positions.length : Int) / 3 = ((4 * k : Nat) : Int) := by
    rw [hp]; push_cast; omega
  cases f with
  | plant vx vy vz id face =>
    rw [passB_face] at h
    cases h
    refine ⟨?_, ?_, ?_, ?_, ?_, ?_⟩
    · simp [PlantFace.cornerList, hp]; omega
    · simp [PlantFace.cornerList, hu]; omega
    · simp [PlantFace.cornerList, ha]; omega
    · simp [hi]; omega
    · simp [hii]; omega
    · intro j hj
      simp only [List.mem_append] at hj
      rcases hj with hj | hj
      · have hbj := hb j hj
        refine ⟨hbj.1, ?_⟩
        have h2 := hbj.2
        push_cast at h2 ⊢
        omega
      · have hw := winding_mem_bound false _ j hj
        rw [hndx] at hw
        push_cast at hw ⊢
        omega
  | block vx vy vz id face =>
    rw [passB_face] at h
    rcases Option.bind_eq_some.mp h with ⟨near, _, h2⟩
    cases h2
    refine ⟨?_, ?_, ?_, ?_, ?_, ?_⟩
    · simp [BlockFace.cornerList, hp]; omega
    · simp [BlockFace.cornerList, hu]; omega
    · simp [BlockFace.cornerList, ha]; omega
    · simp only [MeshAcc.indices, List.length_append, winding_length, hi]
      omega
    · simp [hii]; omega
    · intro j hj
      simp only [List.mem_append] at hj
      rcases hj with hj | hj
      · have hbj := hb j hj
        refine ⟨hbj.1, ?_⟩
        have h2 := hbj.2
        push_cast at h2 ⊢
        omega
      · have hw := winding_mem_bound _ _ j hj
        rw [hndx] at hw
        push_cast at hw ⊢
        omega

/-- The pass-B fold preserves the buffer-shape invariant, face by face. -/
theorem foldlM_passB_ok (reg : Registry) (w : Chunks) (dimQ : ℚ)
    (tl : List Int) :
    ∀ (faces : List EmittedFace) (acc acc' : MeshAcc) (k : Nat),
      List.foldlM (passB_face reg w dimQ tl) acc faces = some acc' →
      mesh_acc_ok acc k → mesh_acc_ok acc' (k + faces.length) := by
  intro faces
  induction faces with
  | nil =>
    intro acc acc' k h hk
    simp only [List.foldlM_nil] at h
    cases h
    simpa using hk
  | cons f t ih =>
    intro acc acc' k h hk
    rw [List.foldlM_cons] at h
    rcases Option.bind_eq_some.mp h with ⟨acc1, h1, h2⟩
    have h3 := passB_face_ok reg w dimQ tl acc acc1 f k h1 hk
    have h4 := ih acc1 acc' (k + 1) h2 h3
    have he : k + (f :: t).length = k + 1 + t.length := by simp; omega
    rw [he]
    exact h4

/-- C8: every mesh `mesh_chunk` returns consists of `q` quads and
`n = 4q` vertices: `3n` position floats, `2n` uvs, `n` AO values, `n`
smoothed sunlight and `n` torch values, `6q` indices all `< n`; and a
transparent call that emits no quads returns nothing instead. -/
theorem c8_mesh_buffer_shape (reg : Registry) (tables : FaceTables)
    (w : Chunks) (coords : Int × Int) (transparent : Bool) (m : MeshType)
    (hm : Chunks.mesh_chunk reg tables w coords transparent = some (some m)) :
    ∃ n q : Nat, n = 4 * q
      ∧ m.positions.length = 3 * n ∧ m.uvs.length = 2 * n
      ∧ m.aos.length = n ∧ m.sunlights.length = n ∧ m.torch_lights.length = n
      ∧ m.indices.length = 6 * q
      ∧ (∀ j ∈ m.indices, j < (n : Int))
      ∧ (transparent = true → m.indices ≠ []) := by
  rw [Chunks.mesh_chunk] at hm
  rcases Option.bind_eq_some.mp hm with ⟨ch, hch, h2⟩
  rcases Option.bind_eq_some.mp h2 with ⟨faces, hfaces, h3⟩
  rcases Option.bind_eq_some.mp h3 with ⟨pa, hpa, h4⟩
  rcases Option.bind_eq_some.mp h4 with ⟨sun, hsun, h5⟩
  rcases Option.bind_eq_some.mp h5 with ⟨torch, htorch, h6⟩
  rcases Option.bind_eq_some.mp h6 with ⟨pb, hpb, h7⟩
  have hpaLen : pa.2.length = 4 * faces.length := by
    have hcount := foldlM_measure (fun p : VMap × List VKey => p.2.length) 4 _
      (fun s a s' hs => passA_face_reps_len reg w _ _ _ _ _ _ _ _ s s' a hs)
      faces ([], []) pa hpa
    dsimp only at hcount
    simpa using hcount
  have hsunLen := smooth_levels_length pa.1 pa.2 _ sun hsun
  have htorchLen := smooth_levels_length pa.1 pa.2 _ torch htorch
  have hok := foldlM_passB_ok reg w _ _ faces ⟨[], [], [], [], 0⟩ pb 0 hpb
    (by refine ⟨rfl, rfl, rfl, rfl, rfl, ?_⟩
        intro j hj
        simp at hj)
  rw [Nat.zero_add] at hok
  obtain ⟨hbp, hbu, hba, hbi, _, hbb⟩ := hok
  by_cases hc : (transparent && pb.indices.length == 0) = true
  · rw [if_pos hc] at h7
    simp at h7
  · rw [if_neg hc] at h7
    simp only [Option.some.injEq] at h7
    subst h7
    refine ⟨4 * faces.length, faces.length, rfl, ?_, ?_, ?_, ?_, ?_, ?_, ?_, ?_⟩
    · simpa using by omega
    · simpa using by omega
    · simpa using hba
    · simpa [hsunLen] using hpaLen
    · simpa [htorchLen] using hpaLen
    · simpa using hbi
    · intro j hj
      exact ((hbb j hj).2)
    · intro ht
      have hlen : pb.indices.length ≠ 0 := by
        rw [ht] at hc
        simpa using hc
      intro hnil
      exact hlen (by simpa using congrArg List.length hnil)

/-- Witness for C8: the opaque mesh of an all-air ready chunk. -/
theorem c8_mesh_buffer_shape_witness :
    ∃ n q : Nat, n = 4 * q
      ∧ (MeshType.mk [] [] [] [] [] []).positions.length = 3 * n
      ∧ (MeshType.mk [] [] [] [] [] []).uvs.length = 2 * n
      ∧ (MeshType.mk [] [] [] [] [] []).aos.length = n
      ∧ (MeshType.mk [] [] [] [] [] []).sunlights.length = n
      ∧ (MeshType.mk [] [] [] [] [] []).torch_lights.length = n
      ∧ (MeshType.mk [] [] [] [] [] []).indices.length = 6 * q
      ∧ (∀ j ∈ (MeshType.mk [] [] [] [] [] []).indices, j < (n : Int))
      ∧ (false = true → (MeshType.mk [] [] [] [] [] []).indices ≠ []) :=
  c8_mesh_buffer_shape regT tablesEmpty wC1 (0, 0) false
    (MeshType.mk [] [] [] [] [] []) (by decide)

/-- C10 counterexample: replacing a voxel with its own id is not a no-op
for the light fields or the height map.  (i) In `wT` a torch block (id 3,
light level 5) whose stored torch light is 0 sits in a propagated chunk;
`update` with the same id re-seeds the torch light to 5.  (ii) In `wT2`
(all air, stored column height 3) `update` with the same air id rewrites
the height-map entry from 3 to 0. -/
theorem c10_same_id_counterexample :
    (wT.get_voxel_by_voxel 1 1 1 = some 3)
    ∧ ((wT.get_chunk (0, 0)).map (fun ch => ch.needs_propagation) = some false)
    ∧ (wT.get_torch_light 1 1 1 = some 0)
    ∧ ((Chunks.update regT 9 wT 1 1 1 3).bind
        (fun w => w.get_torch_light 1 1 1) = some 5)
    ∧ (wT2.get_voxel_by_voxel 0 3 0 = some 0)
    ∧ (wT2.get_max_height 0 0 = some 3)
    ∧ ((Chunks.update regT 9 wT2 0 3 0 0).bind
        (fun w => w.get_max_height 0 0) = some 0) := by decide

/-- Dropping the entries of one key does not change lookups of another. -/
theorem find_filter_other_key (l : List ((Int × Int) × Chunk))
    (c d : Int × Int) (hd : d ≠ c) :
    (l.filter (fun p => decide (p.1 ≠ c))).find? (fun p => p.1 = d)
      = l.find? (fun p => p.1 = d) := by
  induction l with
  | nil => rfl
  | cons a t ih =>
    by_cases ha : a.1 = c
    · rw [List.filter_cons_of_neg (by simp [ha]),
        List.find?_cons_of_neg _ (by simp [ha]; exact fun hcd => hd hcd.symm),
        ih]
    · rw [List.filter_cons_of_pos (by simp [ha])]
      by_cases had : a.1 = d
      · rw [List.find?_cons_of_pos _ (by simp [had]),
          List.find?_cons_of_pos _ (by simp [had])]
      · rw [List.find?_cons_of_neg _ (by simp [had]),
          List.find?_cons_of_neg _ (by simp [had]), ih]

/-- Lookup after a keyed-map write. -/
theorem get_chunk_put (w : Chunks) (c : Int × Int) (ch : Chunk)
    (d : Int × Int) :
    (w.put_chunk c ch).get_chunk d
      = if d = c then some ch else w.get_chunk d := by
  simp only [Chunks.put_chunk, Chunks.get_chunk]
  by_cases hd : d = c
  · subst hd
    rw [List.find?_cons_of_pos _ (by simp), if_pos rfl]
    rfl
  · rw [List.find?_cons_of_neg _ (by simp [Ne.symm hd]), if_neg hd,
      find_filter_other_key _ _ _ hd]

/-- The entries after a keyed-map write: the new entry, or an old entry
with a different key. -/
theorem mem_put_chunk {w : Chunks} {c : Int × Int} {ch : Chunk}
    {p : (Int × Int) × Chunk} (h : p ∈ (w.put_chunk c ch).chunks) :
    p = (c, ch) ∨ (p ∈ w.chunks ∧ p.1 ≠ c) := by
  simp only [Chunks.put_chunk, List.mem_cons] at h
  rcases h with rfl | h
  · exact Or.inl rfl
  · have := List.mem_filter.mp h
    refine Or.inr ⟨this.1, ?_⟩
    simpa using this.2

/-- Writes keep the metrics. -/
theorem metrics_put_chunk (w : Chunks) (c : Int × Int) (ch : Chunk) :
    (w.put_chunk c ch).metrics = w.metrics := rfl

/-- A successful lookup is an entry of the container. -/
theorem get_chunk_mem {w : Chunks} {c : Int × Int} {ch : Chunk}
    (h : w.get_chunk c = some ch) : (c, ch) ∈ w.chunks := by
  simp only [Chunks.get_chunk] at h
  rcases Option.map_eq_some'.mp h with ⟨p, hp, hsnd⟩
  have hmem := List.mem_of_find?_eq_some hp
  have hkey := List.find?_some hp
  simp only [decide_eq_true_eq] at hkey
  have : p = (c, ch) := by
    rcases p with ⟨pc, pch⟩
    cases hkey
    cases hsnd
    rfl
  rw [← this]
  exact hmem

/-- A successful `modify_chunk` is a keyed write of the transformed
first-found chunk. -/
theorem modify_chunk_eq_some {w : Chunks} {c : Int × Int} {f : Chunk → Chunk}
    {w' : Chunks} (h : w.modify_chunk c f = some w') :
    ∃ ch0, w.get_chunk c = some ch0 ∧ w' = w.put_chunk c (f ch0) := by
  simp only [Chunks.modify_chunk] at h
  rcases Option.bind_eq_some.mp h with ⟨ch0, hch, h2⟩
  cases h2
  exact ⟨ch0, hch, rfl⟩

/-- Lookup after a successful `modify_chunk`. -/
theorem get_chunk_modify {w : Chunks} {c : Int × Int} {f : Chunk → Chunk}
    {w' : Chunks} (h : w.modify_chunk c f = some w') (d : Int × Int) :
    w'.get_chunk d
      = if d = c then (w.get_chunk c).map f else w.get_chunk d := by
  rcases modify_chunk_eq_some h with ⟨ch0, hch, rfl⟩
  rw [get_chunk_put]
  by_cases hd : d = c <;> simp [hd, hch]

/-- `modify_chunk` keeps the metrics. -/
theorem metrics_modify {w : Chunks} {c : Int × Int} {f : Chunk → Chunk}
    {w' : Chunks} (h : w.modify_chunk c f = some w') :
    w'.metrics = w.metrics := by
  rcases modify_chunk_eq_some h with ⟨ch0, _, rfl⟩
  rfl

/-- Entries after a successful `modify_chunk`. -/
theorem mem_modify {w : Chunks} {c : Int × Int} {f : Chunk → Chunk}
    {w' : Chunks} (h : w.modify_chunk c f = some w')
    {p : (Int × Int) × Chunk} (hp : p ∈ w'.chunks) :
    (∃ ch0, w.get_chunk c = some ch0 ∧ p = (c, f ch0))
    ∨ (p ∈ w.chunks ∧ p.1 ≠ c) := by
  rcases modify_chunk_eq_some h with ⟨ch0, hch, rfl⟩
  rcases mem_put_chunk hp with h1 | h1
  · exact Or.inl ⟨ch0, hch, h1⟩
  · exact Or.inr h1

/-- The local x index of a voxel inside the chunk found by
`map_voxel_to_chunk` is in range. -/
theorem localCoord_fdiv_lt {v : Int} {s : Nat} (hs : 0 < s) :
    localCoord v (Int.fdiv v (s : Int)) s < s := by
  have hs' : (0 : Int) < (s : Int) := by exact_mod_cast hs
  have hfd : Int.fdiv v (s : Int) = v / (s : Int) :=
    Int.fdiv_eq_ediv _ (le_of_lt hs')
  have h1 : 0 ≤ v % (s : Int) := Int.emod_nonneg v (by omega)
  have h2 : v % (s : Int) < (s : Int) := Int.emod_lt_of_pos v hs'
  have he : v - Int.fdiv v (s : Int) * (s : Int) = v % (s : Int) := by
    rw [hfd, Int.emod_def]
    ring
  unfold localCoord
  rw [he]
  omega

/-- `get_voxel_by_voxel`, written through `get_chunk`. -/
theorem get_voxel_transl (w : Chunks) (x y z : Int) :
    w.get_voxel_by_voxel x y z
      = (w.get_chunk (map_voxel_to_chunk x z w.metrics.chunk_size)).map
          (fun ch => ch.get_voxel w.metrics.chunk_size x y z) := by
  simp only [Chunks.get_voxel_by_voxel, Chunks.get_chunk_by_voxel]
  cases w.get_chunk (map_voxel_to_chunk x z w.metrics.chunk_size) <;> rfl

/-- `get_sunlight`, written through `get_chunk`. -/
theorem get_sunlight_transl (w : Chunks) (x y z : Int) :
    w.get_sunlight x y z
      = (w.get_chunk (map_voxel_to_chunk x z w.metrics.chunk_size)).map
          (fun ch => ch.get_sunlight w.metrics.chunk_size x y z) := by
  simp only [Chunks.get_sunlight, Chunks.get_chunk_by_voxel]
  cases w.get_chunk (map_voxel_to_chunk x z w.metrics.chunk_size) <;> rfl

/-- `get_torch_light`, written through `get_chunk`. -/
theorem get_torch_light_transl (w : Chunks) (x y z : Int) :
    w.get_torch_light x y z
      = (w.get_chunk (map_voxel_to_chunk x z w.metrics.chunk_size)).map
          (fun ch => ch.get_torch_light w.metrics.chunk_size x y z) := by
  simp only [Chunks.get_torch_light, Chunks.get_chunk_by_voxel]
  cases w.get_chunk (map_voxel_to_chunk x z w.metrics.chunk_size) <;> rfl

/-- `get_max_height`, written through `get_chunk`. -/
theorem get_max_height_transl (w : Chunks) (x z : Int) :
    w.get_max_height x z
      = (w.get_chunk (map_voxel_to_chunk x z w.metrics.chunk_size)).map
          (fun ch => ch.get_max_height w.metrics.chunk_size x z) := by
  simp only [Chunks.get_max_height, Chunks.get_chunk_by_voxel]
  cases w.get_chunk (map_voxel_to_chunk x z w.metrics.chunk_size) <;> rfl

/-- `core_eq` is reflexive. -/
theorem core_eq_refl (w : Chunks) : core_eq w w := ⟨rfl, fun _ => rfl⟩

/-- `core_eq` is transitive. -/
theorem core_eq_trans {w1 w2 w3 : Chunks} (h1 : core_eq w1 w2)
    (h2 : core_eq w2 w3) : core_eq w1 w3 :=
  ⟨h2.1.trans h1.1, fun c => (h2.2 c).trans (h1.2 c)⟩

/-- A `modify_chunk` whose transform keeps all core fields is a `core_eq`
step. -/
theorem core_eq_modify {w w' : Chunks} {c : Int × Int} {f : Chunk → Chunk}
    (h : w.modify_chunk c f = some w')
    (hf : ∀ ch, (f ch).vox = ch.vox ∧ (f ch).sun = ch.sun
      ∧ (f ch).torch = ch.torch ∧ (f ch).hmap = ch.hmap
      ∧ (f ch).meshes = ch.meshes ∧ (f ch).cx = ch.cx ∧ (f ch).cz = ch.cz) :
    core_eq w w' := by
  refine ⟨metrics_modify h, fun d => ?_⟩
  rw [get_chunk_modify h d]
  by_cases hd : d = c
  · rw [if_pos hd, hd]
    cases hch : w.get_chunk c
    · rfl
    · rename_i ch0
      obtain ⟨h1, h2, h3, h4, h5, h6, h7⟩ := hf ch0
      simp [h1, h2, h3, h4, h5, h6, h7]
  · rw [if_neg hd]

/-- Unpack `core_eq` at one coordinate. -/
theorem core_eq_chunk_at {w w' : Chunks} (h : core_eq w w') (K : Int × Int) :
    (w'.get_chunk K = none ∧ w.get_chunk K = none)
    ∨ ∃ ch ch', w.get_chunk K = some ch ∧ w'.get_chunk K = some ch'
        ∧ ch'.vox = ch.vox ∧ ch'.sun = ch.sun ∧ ch'.torch = ch.torch
        ∧ ch'.hmap = ch.hmap ∧ ch'.meshes = ch.meshes
        ∧ ch'.cx = ch.cx ∧ ch'.cz = ch.cz := by
  have hc := h.2 K
  rcases ho' : w'.get_chunk K with _ | ch' <;>
    rcases ho : w.get_chunk K with _ | ch <;>
    rw [ho, ho'] at hc <;> simp only [Option.map_some', Option.map_none'] at hc
  · exact Or.inl ⟨rfl, rfl⟩
  · exact absurd hc (by simp)
  · exact absurd hc (by simp)
  · simp only [Option.some.injEq, Prod.mk.injEq] at hc
    obtain ⟨h1, h2, h3, h4, h5, h6, h7⟩ := hc
    exact Or.inr ⟨ch, ch', rfl, rfl, h1, h2, h3, h4, h5, h6, h7⟩

/-- `core_eq` makes every light, voxel, height and mesh getter agree. -/
theorem core_eq_getters {w w' : Chunks} (h : core_eq w w') :
    (∀ x y z : Int, w'.get_sunlight x y z = w.get_sunlight x y z)
    ∧ (∀ x y z : Int, w'.get_torch_light x y z = w.get_torch_light x y z)
    ∧ (∀ x y z : Int, w'.get_voxel_by_voxel x y z = w.get_voxel_by_voxel x y z)
    ∧ (∀ x z : Int, w'.get_max_height x z = w.get_max_height x z)
    ∧ (∀ c, (w'.get_chunk c).map (fun ch => ch.meshes)
        = (w.get_chunk c).map (fun ch => ch.meshes)) := by
  have hm := h.1
  refine ⟨?_, ?_, ?_, ?_, ?_⟩
  · intro x y z
    rw [get_sunlight_transl, get_sunlight_transl, hm]
    rcases core_eq_chunk_at h (map_voxel_to_chunk x z w.metrics.chunk_size)
      with ⟨h1, h2⟩ | ⟨ch, ch', h1, h2, hv, hs, ht, hh, hms, hx, hz⟩
    · rw [h1, h2]
    · rw [h1, h2]
      simp [Chunk.get_sunlight, hs, hx, hz]
  · intro x y z
    rw [get_torch_light_transl, get_torch_light_transl, hm]
    rcases core_eq_chunk_at h (map_voxel_to_chunk x z w.metrics.chunk_size)
      with ⟨h1, h2⟩ | ⟨ch, ch', h1, h2, hv, hs, ht, hh, hms, hx, hz⟩
    · rw [h1, h2]
    · rw [h1, h2]
      simp [Chunk.get_torch_light, ht, hx, hz]
  · intro x y z
    rw [get_voxel_transl, get_voxel_transl, hm]
    rcases core_eq_chunk_at h (map_voxel_to_chunk x z w.metrics.chunk_size)
      with ⟨h1, h2⟩ | ⟨ch, ch', h1, h2, hv, hs, ht, hh, hms, hx, hz⟩
    · rw [h1, h2]
    · rw [h1, h2]
      simp [Chunk.get_voxel, hv, hx, hz]
  · intro x z
    rw [get_max_height_transl, get_max_height_transl, hm]
    rcases core_eq_chunk_at h (map_voxel_to_chunk x z w.metrics.chunk_size)
      with ⟨h1, h2⟩ | ⟨ch, ch', h1, h2, hv, hs, ht, hh, hms, hx, hz⟩
    · rw [h1, h2]
    · rw [h1, h2]
      simp [Chunk.get_max_height, hh, hx, hz]
  · intro c
    rcases core_eq_chunk_at h c
      with ⟨h1, h2⟩ | ⟨ch, ch', h1, h2, hv, hs, ht, hh, hms, hx, hz⟩
    · rw [h1, h2]
    · rw [h1, h2]
      simp [hms]

/-- A `modify_chunk` whose transform keeps the core fields of the chunk it
actually rewrites is a `core_eq` step. -/
theorem core_eq_modify_at {w w' : Chunks} {c : Int × Int} {f : Chunk → Chunk}
    (h : w.modify_chunk c f = some w')
    (hf : ∀ ch, w.get_chunk c = some ch →
      (f ch).vox = ch.vox ∧ (f ch).sun = ch.sun
      ∧ (f ch).torch = ch.torch ∧ (f ch).hmap = ch.hmap
      ∧ (f ch).meshes = ch.meshes ∧ (f ch).cx = ch.cx ∧ (f ch).cz = ch.cz) :
    core_eq w w' := by
  refine ⟨metrics_modify h, fun d => ?_⟩
  rw [get_chunk_modify h d]
  by_cases hd : d = c
  · rw [if_pos hd, hd]
    cases hch : w.get_chunk c
    · rfl
    · rename_i ch0
      obtain ⟨h1, h2, h3, h4, h5, h6, h7⟩ := hf ch0 hch
      simp [h1, h2, h3, h4, h5, h6, h7]
  · rw [if_neg hd]

/-- Writing a voxel's own id back is a core no-op. -/
theorem core_eq_set_voxel_same {w w' : Chunks} {vx vy vz : Int} {id : Nat}
    (hid : w.get_voxel_by_voxel vx vy vz = some id)
    (h : w.set_voxel_by_voxel vx vy vz id = some w') : core_eq w w' := by
  refine core_eq_modify_at h (fun ch0 hch => ?_)
  have hval : ch0.get_voxel w.metrics.chunk_size vx vy vz = id := by
    rw [get_voxel_transl] at hid
    rw [hch] at hid
    simpa using hid
  refine ⟨?_, rfl, rfl, rfl, rfl, rfl, rfl⟩
  funext a b c
  simp only [Chunk.set_voxel]
  split
  · rename_i hcond
    obtain ⟨rfl, rfl, rfl⟩ := hcond
    exact hval.symm
  · rfl

/-- C10 (amended): in a well-formed container (positive chunk size, chunks
keyed by their own coordinates) whose height map satisfies the (plant-free)
height invariant, replacing an in-range voxel with its own id, when that
id's block is **not a light emitter**, leaves every sunlight value, every
torch-light value, every stored mesh, every voxel and every height-map
entry unchanged; only flags such as `is_dirty` and `needs_saving` change. -/
theorem c10_same_id_no_op (reg : Registry) (fuel : Nat) (w w' : Chunks)
    (vx vy vz : Int) (id : Nat)
    (hS : 0 < w.metrics.chunk_size)
    (hkey : ∀ p ∈ w.chunks, p.2.cx = p.1.1 ∧ p.2.cz = p.1.2)
    (hy : 0 ≤ vy) (hyH : vy < (w.metrics.max_height : Int))
    (hid : w.get_voxel_by_voxel vx vy vz = some id)
    (hlight : (reg.get_block_by_id id).is_light = false)
    (hinv : world_heights_air_ok reg w)
    (hupd : Chunks.update reg fuel w vx vy vz id = some w') :
    (∀ x y z : Int, w'.get_sunlight x y z = w.get_sunlight x y z)
    ∧ (∀ x y z : Int, w'.get_torch_light x y z = w.get_torch_light x y z)
    ∧ (∀ c, (w'.get_chunk c).map (fun ch => ch.meshes)
        = (w.get_chunk c).map (fun ch => ch.meshes))
    ∧ (∀ x y z : Int, w'.get_voxel_by_voxel x y z = w.get_voxel_by_voxel x y z)
    ∧ (∀ x z : Int, w'.get_max_height x z = w.get_max_height x z) := by
  rw [Chunks.update] at hupd
  rcases Option.bind_eq_some.mp hupd with ⟨w1, hw1, h2⟩
  rcases Option.bind_eq_some.mp h2 with ⟨ch, hch, h3⟩
  rcases Option.bind_eq_some.mp h3 with ⟨height, hheight, h4⟩
  rcases Option.bind_eq_some.mp h4 with ⟨current, hcur, h5⟩
  rcases Option.bind_eq_some.mp h5 with ⟨w2, hw2, h6⟩
  rcases Option.bind_eq_some.mp h6 with ⟨w3, hw3, h7⟩
  -- step 1: the needs_saving flag write is a core no-op
  have hc1 : core_eq w w1 :=
    core_eq_modify_at hw1 (fun ch0 _ => ⟨rfl, rfl, rfl, rfl, rfl, rfl, rfl⟩)
  have hg1 := core_eq_getters hc1
  have hid1 : w1.get_voxel_by_voxel vx vy vz = some id := by
    rw [hg1.2.2.1]; exact hid
  -- the current block is the block of `id`
  have hcur' : current = reg.get_block_by_id id := by
    rw [Chunks.get_block_by_voxel] at hcur
    rcases Option.bind_eq_some.mp hcur with ⟨id', hid', heq⟩
    rw [hid1] at hid'
    cases hid'
    cases heq
    rfl
  have hl : current.is_light = false := by rw [hcur']; exact hlight
  -- the height read on w1 is the height in w
  have hheightw : w.get_max_height vx vz = some height := by
    rw [← hg1.2.2.2.1]; exact hheight
  -- locate the chunk in w and its in-range local column
  rw [get_max_height_transl] at hheightw
  rcases Option.map_eq_some'.mp hheightw with ⟨chw, hchw, hhval⟩
  have hidw : chw.get_voxel w.metrics.chunk_size vx vy vz = id := by
    rw [get_voxel_transl, hchw] at hid
    simpa using hid
  have hkeyw := hkey _ (get_chunk_mem hchw)
  have hlx : localCoord vx chw.cx w.metrics.chunk_size < w.metrics.chunk_size := by
    rw [hkeyw.1]
    exact localCoord_fdiv_lt hS
  have hlz : localCoord vz chw.cz w.metrics.chunk_size < w.metrics.chunk_size := by
    rw [hkeyw.2]
    exact localCoord_fdiv_lt hS
  have hcol := hinv _ (get_chunk_mem hchw) _ hlx _ hlz
  obtain ⟨hh0, hh1, hh2, hh3⟩ := hcol
  dsimp only at hh0 hh1 hh2 hh3
  have hvox : chw.vox (localCoord vx chw.cx w.metrics.chunk_size)
      vy.toNat (localCoord vz chw.cz w.metrics.chunk_size) = id := hidw
  -- the height-map maintenance is the identity here
  have hw3' : w3 = w2 := by
    rw [update_height_map] at hw3
    by_cases hair : reg.is_air id = true
    · rw [if_pos hair] at hw3
      by_cases hvh : (vy == height) = true
      · rw [if_pos hvh] at hw3
        have hveq : vy = height := by simpa using hvh
        by_cases h1v : 1 ≤ vy
        · exfalso
          -- height = vy ≥ 1, so the invariant says the voxel there is
          -- not air; but it is `id`, which is air
          have hhmap : chw.hmap (localCoord vx chw.cx w.metrics.chunk_size)
              (localCoord vz chw.cz w.metrics.chunk_size) = height := hhval
          rcases hh2 with hz | hna
          · omega
          · rw [hhmap, ← hveq, hvox] at hna
            simp [hair] at hna
        · rw [if_neg h1v] at hw3
          cases hw3
          rfl
      · rw [if_neg (by simpa using hvh)] at hw3
        cases hw3
        rfl
    · rw [if_neg (by simpa using hair)] at hw3
      by_cases hlt : height < vy
      · exfalso
        have hhmap : chw.hmap (localCoord vx chw.cx w.metrics.chunk_size)
            (localCoord vz chw.cz w.metrics.chunk_size) = height := hhval
        have hairy := hh3 vy.toNat (by omega) (by rw [hhmap]; omega)
        rw [hvox] at hairy
        exact hair hairy
      · rw [if_neg hlt] at hw3
        cases hw3
        rfl
  -- the light phase does nothing for a non-emitter same-id write
  have hb1 : (current.is_transparent
      && !(reg.get_block_by_id id).is_transparent) = false := by
    rw [hcur']
    exact Bool.and_not_self _
  have hb2 : (reg.get_block_by_id id).is_light = false := hlight
  have hb1r : ((reg.get_block_by_id id).is_transparent
      && !current.is_transparent) = false := by
    rw [hcur']
    exact Bool.and_not_self _
  have hw' : w' = w3 := by
    cases hnp : ch.needs_propagation
    · rw [if_neg (by simp [hnp])] at h7
      simp only [hl, hb1, hb2, Bool.false_eq_true, if_false] at h7
      rcases Option.bind_eq_some.mp h7 with ⟨y, hy3, hk⟩
      cases hy3
      simp only [hb2, hb1r, Bool.false_eq_true, if_false] at hk
      cases hk
      rfl
    · rw [if_pos (by simp [hnp])] at h7
      cases h7
      rfl
  -- assemble: w' = w2 and w ~ w2 on all core fields
  have hc2 : core_eq w1 w2 := core_eq_set_voxel_same hid1 hw2
  have hc : core_eq w w' := by
    rw [hw', hw3']
    exact core_eq_trans hc1 hc2
  obtain ⟨g1, g2, g3, g4, g5⟩ := core_eq_getters hc
  exact ⟨g1, g2, g5, g3, g4⟩

/-- Witness for C10 (amended): rewriting the stone at the bottom of `wP`
with its own id changes no light, voxel or height observation. -/
theorem c10_same_id_no_op_witness :
    ∃ w', Chunks.update regT 1 wP 0 0 0 1 = some w'
      ∧ (∀ x y z : Int, w'.get_torch_light x y z = wP.get_torch_light x y z)
      ∧ (∀ x z : Int, w'.get_max_height x z = wP.get_max_height x z) := by
  rcases hev : Chunks.update regT 1 wP 0 0 0 1 with _ | w'
  · have hs : (Chunks.update regT 1 wP 0 0 0 1).isSome = true := by decide
    rw [hev] at hs
    simp at hs
  · have h := c10_same_id_no_op regT 1 wP w' 0 0 0 1 (by decide) (by decide)
      (by decide) (by decide) (by decide) (by decide) (by decide) hev
    exact ⟨w', rfl, h.2.1, h.2.2.2.2⟩

/-- C5 counterexample: `wP` satisfies the claimed (plant-aware) height
invariant, but after `update(0, 2, 0, plant)` the stored height 2 points at
a plant voxel, so the invariant no longer holds. -/
theorem c5_height_invariant_counterexample :
    world_heights_plant_ok regT wP
    ∧ ((Chunks.update regT 1 wP 0 2 0 4).map
        (fun w' => decide (world_heights_plant_ok regT w'))) = some false := by
  constructor
  · decide
  · decide

/-- Writing air into a column at a position other than the stored height
(or at position 0 when the height is 0) keeps the plant-free column
invariant with the same height. -/
theorem column_inv_air_nochange (reg : Registry) (H : Nat) (col0 : Nat → Nat)
    (h0 : Int) (ly0 id : Nat) (hair : reg.is_air id = true)
    (hinv : column_height_air_ok reg H col0 h0)
    (hcase : (ly0 : Int) ≠ h0 ∨ (ly0 = 0 ∧ h0 = 0)) :
    column_height_air_ok reg H (setCol col0 ly0 id) h0 := by
  obtain ⟨h1, h2, h3, h4⟩ := hinv
  refine ⟨h1, h2, ?_, ?_⟩
  · rcases hcase with hne | ⟨hl0, hh0⟩
    · rcases h3 with hz | hna
      · exact Or.inl hz
      · refine Or.inr ?_
        rw [setCol, if_neg (by omega)]
        exact hna
    · exact Or.inl hh0
  · intro y hyH2 hgt
    by_cases hy0 : y = ly0
    · rw [setCol, if_pos hy0]
      exact hair
    · rw [setCol, if_neg hy0]
      exact h4 y hyH2 hgt

/-- Writing non-air at or below the stored height keeps the plant-free
column invariant with the same height. -/
theorem column_inv_nonair_nochange (reg : Registry) (H : Nat)
    (col0 : Nat → Nat) (h0 : Int) (ly0 id : Nat)
    (hair : reg.is_air id = false)
    (hinv : column_height_air_ok reg H col0 h0)
    (hle : (ly0 : Int) ≤ h0) :
    column_height_air_ok reg H (setCol col0 ly0 id) h0 := by
  obtain ⟨h1, h2, h3, h4⟩ := hinv
  refine ⟨h1, h2, ?_, ?_⟩
  · by_cases he : h0.toNat = ly0
    · refine Or.inr ?_
      rw [setCol, if_pos he]
      exact hair
    · rcases h3 with hz | hna
      · omega
      · refine Or.inr ?_
        rw [setCol, if_neg he]
        exact hna
  · intro y hyH2 hgt
    rw [setCol, if_neg (by omega)]
    exact h4 y hyH2 hgt

/-- Writing non-air above the stored height establishes the plant-free
column invariant at the written height. -/
theorem column_inv_nonair_raise (reg : Registry) (H : Nat)
    (col0 : Nat → Nat) (h0 : Int) (ly0 id : Nat) (hly : ly0 < H)
    (hair : reg.is_air id = false)
    (hinv : column_height_air_ok reg H col0 h0)
    (hgt : h0 < (ly0 : Int)) :
    column_height_air_ok reg H (setCol col0 ly0 id) (ly0 : Int) := by
  obtain ⟨h1, h2, h3, h4⟩ := hinv
  refine ⟨by omega, by omega, ?_, ?_⟩
  · refine Or.inr ?_
    rw [setCol, if_pos (by omega)]
    exact hair
  · intro y hyH2 hgt2
    rw [setCol, if_neg (by omega)]
    exact h4 y hyH2 (by omega)

/-- Removing the top voxel of a column (writing air at the stored height)
and walking down to the first non-air entry establishes the plant-free
column invariant at the walk's result. -/
theorem column_inv_air_walk (reg : Registry) (H : Nat) (col0 : Nat → Nat)
    (h0 : Int) (ly0 id r : Nat) (hly : ly0 < H)
    (hair : reg.is_air id = true)
    (hinv : column_height_air_ok reg H col0 h0)
    (hveq : h0 = (ly0 : Int)) (hly1 : 1 ≤ ly0)
    (hrle : r ≤ ly0 - 1)
    (hr0 : r = 0 ∨ reg.is_air (setCol col0 ly0 id r) = false)
    (hrabove : ∀ y : Nat, r < y → y ≤ ly0 - 1 →
      reg.is_air (setCol col0 ly0 id y) = true) :
    column_height_air_ok reg H (setCol col0 ly0 id) (r : Int) := by
  obtain ⟨h1, h2, h3, h4⟩ := hinv
  refine ⟨by omega, by omega, ?_, ?_⟩
  · rcases hr0 with hz | hna
    · exact Or.inl (by omega)
    · refine Or.inr ?_
      rw [show ((r : Int)).toNat = r by omega]
      exact hna
  · intro y hyH2 hgt
    by_cases hy0 : y = ly0
    · rw [setCol, if_pos hy0]
      exact hair
    · rcases Nat.lt_or_ge y ly0 with hlt | hge
      · exact hrabove y (by omega) (by omega)
      · rw [setCol, if_neg hy0]
        exact h4 y hyH2 (by omega)

/-- A monadic fold preserves any predicate its steps preserve. -/
theorem foldlM_preserve {σ α : Type _} (P : σ → Prop) (step : σ → α → Option σ)
    (hstep : ∀ s a s', step s a = some s' → P s → P s') :
    ∀ (l : List α) (s s' : σ), List.foldlM step s l = some s' → P s → P s' := by
  intro l
  induction l with
  | nil =>
    intro s s' h hP
    simp only [List.foldlM_nil] at h
    cases h
    exact hP
  | cons a t ih =>
    intro s s' h hP
    rw [List.foldlM_cons] at h
    rcases Option.bind_eq_some.mp h with ⟨s1, h1, h2⟩
    exact ih s1 s' h2 (hstep s a s1 h1 hP)

/-- Transfer the chunk-level height invariant along equal voxel and height
fields. -/
theorem chunk_heights_air_ok_congr {reg : Registry} {S H : Nat}
    {ch ch' : Chunk} (hv : ch'.vox = ch.vox) (hh : ch'.hmap = ch.hmap)
    (h : chunk_heights_air_ok reg S H ch) : chunk_heights_air_ok reg S H ch' := by
  unfold chunk_heights_air_ok at h ⊢
  rw [hv, hh]
  exact h

/-- A `modify_chunk` that keeps voxels and heights preserves the container
height invariant. -/
theorem heights_ok_modify {reg : Registry} {w w' : Chunks} {c : Int × Int}
    {f : Chunk → Chunk} (h : w.modify_chunk c f = some w')
    (hf : ∀ ch, (f ch).vox = ch.vox ∧ (f ch).hmap = ch.hmap)
    (hinv : world_heights_air_ok reg w) : world_heights_air_ok reg w' := by
  intro p hp
  have hm := metrics_modify h
  rw [hm]
  rcases mem_modify h hp with ⟨ch0, hch, rfl⟩ | ⟨hp', _⟩
  · exact chunk_heights_air_ok_congr (hf ch0).1 (hf ch0).2
      (hinv (c, ch0) (get_chunk_mem hch))
  · exact hinv p hp'

/-- Sunlight writes preserve the height invariant. -/
theorem heights_ok_set_sunlight {reg : Registry} {w w' : Chunks}
    {x y z : Int} {l : Nat} (h : w.set_sunlight x y z l = some w')
    (hinv : world_heights_air_ok reg w) : world_heights_air_ok reg w' :=
  heights_ok_modify h (fun _ => ⟨rfl, rfl⟩) hinv

/-- Torch-light writes preserve the height invariant. -/
theorem heights_ok_set_torch {reg : Registry} {w w' : Chunks}
    {x y z : Int} {l : Nat} (h : w.set_torch_light x y z l = some w')
    (hinv : world_heights_air_ok reg w) : world_heights_air_ok reg w' :=
  heights_ok_modify h (fun _ => ⟨rfl, rfl⟩) hinv

/-- Marking a chunk for saving preserves the height invariant. -/
theorem heights_ok_mark {reg : Registry} {w w' : Chunks} {x y z : Int}
    (h : w.mark_saving_from_voxel x y z = some w')
    (hinv : world_heights_air_ok reg w) : world_heights_air_ok reg w' :=
  heights_ok_modify h (fun _ => ⟨rfl, rfl⟩) hinv

/-- One `flood_light` neighbor step preserves the height invariant. -/
theorem heights_ok_flood_step {reg : Registry} {is_sunlight : Bool}
    {maxH : Int} {maxL : Nat} {vx vy vz : Int} {level : Nat}
    {off : Int × Int × Int} {w : Chunks} {q : List LightNode}
    {p' : Chunks × List LightNode}
    (h : flood_step_neighbor reg is_sunlight maxH maxL vx vy vz level off
          w q = some p')
    (hinv : world_heights_air_ok reg w) : world_heights_air_ok reg p'.1 := by
  rw [flood_step_neighbor] at h
  split at h
  · cases h
    exact hinv
  · rcases Option.bind_eq_some.mp h with ⟨blk, _, h2⟩
    dsimp only at h2
    split at h2 <;>
    · rcases Option.bind_eq_some.mp h2 with ⟨cur, _, h3⟩
      split at h3
      · cases h3
        exact hinv
      · rcases Option.bind_eq_some.mp h3 with ⟨w1, hw1, h4⟩
        rcases Option.bind_eq_some.mp h4 with ⟨w2, hw2, h5⟩
        cases h5
        refine heights_ok_mark hw2 ?_
        first
        | exact heights_ok_set_sunlight hw1 hinv
        | exact heights_ok_set_torch hw1 hinv

/-- The `flood_light` BFS preserves the height invariant. -/
theorem heights_ok_flood_loop (reg : Registry) (is_sunlight : Bool)
    (maxH : Int) (maxL : Nat) :
    ∀ (fuel : Nat) (w : Chunks) (q : List LightNode) (w' : Chunks),
      flood_light_loop reg is_sunlight maxH maxL fuel w q = some w' →
      world_heights_air_ok reg w → world_heights_air_ok reg w' := by
  intro fuel
  induction fuel with
  | zero =>
    intro w q w' h hP
    simp [flood_light_loop] at h
  | succ n ih =>
    intro w q w' h hP
    cases q with
    | nil =>
      rw [flood_light_loop] at h
      cases h
      exact hP
    | cons node rest =>
      rw [flood_light_loop] at h
      rcases Option.bind_eq_some.mp h with ⟨st, hst, h2⟩
      have hPst := foldlM_preserve
        (fun p : Chunks × List LightNode => world_heights_air_ok reg p.1) _
        (fun s a s' hs hp => heights_ok_flood_step hs hp)
        VOXEL_NEIGHBORS (w, rest) st hst hP
      exact ih st.1 st.2 w' h2 hPst

/-- `flood_light` preserves the height invariant. -/
theorem heights_ok_flood {reg : Registry} {fuel : Nat} {w w' : Chunks}
    {q : List LightNode} {is_sunlight : Bool}
    (h : Chunks.flood_light reg fuel w q is_sunlight = some w')
    (hinv : world_heights_air_ok reg w) : world_heights_air_ok reg w' :=
  heights_ok_flood_loop reg is_sunlight _ _ fuel w q w' h hinv

/-- One `remove_light` neighbor step preserves the height invariant. -/
theorem heights_ok_remove_step {is_sunlight : Bool} {maxH : Int}
    {maxL : Nat} {vx vy vz : Int} {level : Nat} {off : Int × Int × Int}
    {w : Chunks} {q fill : List LightNode}
    {p' : Chunks × List LightNode × List LightNode} {reg : Registry}
    (h : remove_step_neighbor is_sunlight maxH maxL vx vy vz level off
          w q fill = some p')
    (hinv : world_heights_air_ok reg w) : world_heights_air_ok reg p'.1 := by
  rw [remove_step_neighbor] at h
  split at h
  · cases h
    exact hinv
  · dsimp only at h
    split at h <;>
    · rcases Option.bind_eq_some.mp h with ⟨nl, _, h2⟩
      split at h2
      · cases h2
        exact hinv
      · rcases Option.bind_eq_some.mp h2 with ⟨w1, hw1, h3⟩
        rcases Option.bind_eq_some.mp h3 with ⟨w2, hw2, h4⟩
        cases h4
        refine heights_ok_mark hw2 ?_
        first
        | exact heights_ok_set_sunlight hw1 hinv
        | exact heights_ok_set_torch hw1 hinv
      · cases h2
        exact hinv

/-- The `remove_light` BFS preserves the height invariant. -/
theorem heights_ok_remove_loop (is_sunlight : Bool) (maxH : Int)
    (maxL : Nat) (reg : Registry) :
    ∀ (fuel : Nat) (w : Chunks) (q fill : List LightNode)
      (st : Chunks × List LightNode),
      remove_light_loop is_sunlight maxH maxL fuel w q fill = some st →
      world_heights_air_ok reg w → world_heights_air_ok reg st.1 := by
  intro fuel
  induction fuel with
  | zero =>
    intro w q fill st h hP
    simp [remove_light_loop] at h
  | succ n ih =>
    intro w q fill st h hP
    cases q with
    | nil =>
      rw [remove_light_loop] at h
      cases h
      exact hP
    | cons node rest =>
      rw [remove_light_loop] at h
      rcases Option.bind_eq_some.mp h with ⟨st1, hst1, h2⟩
      have hPst := foldlM_preserve
        (fun p : Chunks × List LightNode × List LightNode =>
          world_heights_air_ok reg p.1) _
        (fun s a s' hs hp => heights_ok_remove_step hs hp)
        VOXEL_NEIGHBORS (w, rest, fill) st1 hst1 hP
      exact ih st1.1 st1.2.1 st1.2.2 st h2 hPst

/-- `remove_light` preserves the height invariant. -/
theorem heights_ok_remove {reg : Registry} {fuel : Nat} {w w' : Chunks}
    {vx vy vz : Int} {is_sunlight : Bool}
    (h : Chunks.remove_light reg fuel w vx vy vz is_sunlight = some w')
    (hinv : world_heights_air_ok reg w) : world_heights_air_ok reg w' := by
  rw [Chunks.remove_light] at h
  rcases Option.bind_eq_some.mp h with ⟨st, hst, h2⟩
  have h1 : world_heights_air_ok reg st.1 := by
    rw [Chunks.remove_removal_phase] at hst
    dsimp only at hst
    split at hst <;>
    · rcases Option.bind_eq_some.mp hst with ⟨level, _, hst2⟩
      rcases Option.bind_eq_some.mp hst2 with ⟨w1, hw1, hst3⟩
      rcases Option.bind_eq_some.mp hst3 with ⟨w2, hw2, hst4⟩
      have hP1 : world_heights_air_ok reg w1 := by
        first
        | exact heights_ok_set_sunlight hw1 hinv
        | exact heights_ok_set_torch hw1 hinv
      exact heights_ok_remove_loop _ _ _ reg fuel w2 _ _ st hst4
        (heights_ok_mark hw2 hP1)
  exact heights_ok_flood h2 h1

/-- The per-pass light removal of `update` preserves the height
invariant. -/
theorem heights_ok_update_remove_pass {reg : Registry} {fuel : Nat}
    {w w' : Chunks} {vx vy vz : Int} {is_sunlight : Bool}
    (h : update_remove_pass reg fuel w vx vy vz is_sunlight = some w')
    (hinv : world_heights_air_ok reg w) : world_heights_air_ok reg w' := by
  rw [update_remove_pass] at h
  split at h <;>
  · rcases Option.bind_eq_some.mp h with ⟨level, _, h2⟩
    dsimp only at h2
    split at h2
    · exact heights_ok_remove h2 hinv
    · cases h2
      exact hinv

/-- The per-pass light re-seeding of `update` preserves the height
invariant. -/
theorem heights_ok_update_replace_pass {reg : Registry} {fuel : Nat}
    {is_sunlight : Bool} {maxH : Int} {maxL : Nat} {w w' : Chunks}
    {vx vy vz : Int}
    (h : update_replace_pass reg fuel is_sunlight maxH maxL w vx vy vz
          = some w')
    (hinv : world_heights_air_ok reg w) : world_heights_air_ok reg w' := by
  rw [update_replace_pass] at h
  split at h
  · rcases Option.bind_eq_some.mp h with ⟨w1, hw1, h2⟩
    exact heights_ok_flood h2 (heights_ok_set_sunlight hw1 hinv)
  · rcases Option.bind_eq_some.mp h with ⟨r, _, h2⟩
    split at h2
    · cases h2
      exact hinv
    · exact heights_ok_flood h2 hinv

/-- What the walk-down of `update`'s height maintenance computes: it sets
the height to some `r ≤ n` whose voxel is non-air (or 0), with every
voxel strictly between `r` and `n` air. -/
theorem height_walk_spec (reg : Registry) (w : Chunks) (vx vz : Int) :
    ∀ (n : Nat) (w' : Chunks), height_walk reg w vx vz n = some w' →
    ∃ r : Nat, r ≤ n ∧ w.set_max_height vx vz (r : Int) = some w'
      ∧ (r = 0 ∨ ∃ idr, w.get_voxel_by_voxel vx (r : Int) vz = some idr
            ∧ reg.is_air idr = false)
      ∧ (∀ y : Nat, r < y → y ≤ n →
          ∃ idy, w.get_voxel_by_voxel vx (y : Int) vz = some idy
            ∧ reg.is_air idy = true) := by
  intro n
  induction n with
  | zero =>
    intro w' h
    rw [height_walk] at h
    exact ⟨0, Nat.le_refl 0, h, Or.inl rfl, fun y h1 h2 => absurd h2 (by omega)⟩
  | succ m ih =>
    intro w' h
    rw [height_walk] at h
    rcases Option.bind_eq_some.mp h with ⟨idv, hid, h2⟩
    have hcast : ((m : Int) + 1) = ((m + 1 : Nat) : Int) := by push_cast; ring
    rw [hcast] at hid
    split at h2
    · rename_i hna
      simp only [Bool.not_eq_true'] at hna
      refine ⟨m + 1, Nat.le_refl _, ?_, Or.inr ⟨idv, hid, hna⟩,
        fun y h1 h2 => absurd (Nat.lt_of_lt_of_le h1 h2) (by omega)⟩
      rw [← hcast]
      exact h2
    · rename_i hna
      simp only [Bool.not_eq_true, Bool.not_eq_false'] at hna
      rcases ih w' h2 with ⟨r, hr, hset, hr0, habove⟩
      refine ⟨r, Nat.le_succ_of_le hr, hset, hr0, ?_⟩
      intro y h1 hy2
      rcases Nat.lt_or_ge y (m + 1) with hlt | hge
      · exact habove y h1 (by omega)
      · have : y = m + 1 := by omega
        subst this
        exact ⟨idv, hid, hna⟩

/-- Inserting a chunk that satisfies the chunk-level height invariant
keeps the container invariant. -/
theorem heights_ok_put {reg : Registry} {w : Chunks} {c : Int × Int}
    {ch' : Chunk}
    (hch : chunk_heights_air_ok reg w.metrics.chunk_size
      w.metrics.max_height ch')
    (hinv : world_heights_air_ok reg w) :
    world_heights_air_ok reg (w.put_chunk c ch') := by
  intro p hp
  rcases mem_put_chunk hp with rfl | ⟨hmem, _⟩
  · exact hch
  · exact hinv p hmem

/-- Inserting twice at the same key: only the second chunk matters for the
container invariant. -/
theorem heights_ok_put_put {reg : Registry} {w : Chunks} {c : Int × Int}
    {ch1 ch2 : Chunk}
    (hch : chunk_heights_air_ok reg w.metrics.chunk_size
      w.metrics.max_height ch2)
    (hinv : world_heights_air_ok reg w) :
    world_heights_air_ok reg ((w.put_chunk c ch1).put_chunk c ch2) := by
  intro p hp
  rcases mem_put_chunk hp with rfl | ⟨hmem, hne⟩
  · exact hch
  · rcases mem_put_chunk hmem with rfl | ⟨hmem2, _⟩
    · exact absurd rfl hne
    · exact hinv p hmem2

/-- The chunk-level height invariant after a voxel write at column
`(lx0, lz0)` together with a (possibly trivial) height write there: the
written column's invariant is supplied, every other column is unchanged. -/
theorem chunk_heights_ok_write (reg : Registry) (S H : Nat) (ch0 : Chunk)
    (lx0 ly0 lz0 : Nat) (id : Nat) (hnew : Int)
    (hch0 : chunk_heights_air_ok reg S H ch0)
    (hcol : lx0 < S → lz0 < S →
      column_height_air_ok reg H
        (setCol (fun y => ch0.vox lx0 y lz0) ly0 id) hnew)
    (ch' : Chunk)
    (hvox : ∀ a b c, ch'.vox a b c
      = if a = lx0 ∧ b = ly0 ∧ c = lz0 then id else ch0.vox a b c)
    (hhm : ∀ a c, ch'.hmap a c
      = if a = lx0 ∧ c = lz0 then hnew else ch0.hmap a c) :
    chunk_heights_air_ok reg S H ch' := by
  intro lx hlx lz hlz
  by_cases hc : lx = lx0 ∧ lz = lz0
  · obtain ⟨rfl, rfl⟩ := hc
    have hfun : (fun y => ch'.vox lx y lz)
        = setCol (fun y => ch0.vox lx y lz) ly0 id := by
      funext y
      rw [hvox, setCol]
      by_cases hy : y = ly0
      · rw [if_pos ⟨rfl, hy, rfl⟩, if_pos hy]
      · rw [if_neg (by tauto), if_neg hy]
    rw [hfun, hhm, if_pos ⟨rfl, rfl⟩]
    exact hcol hlx hlz
  · have hfun : (fun y => ch'.vox lx y lz) = fun y => ch0.vox lx y lz := by
      funext y
      rw [hvox, if_neg (by tauto)]
    rw [hfun, hhm, if_neg hc]
    exact hch0 lx hlx lz hlz

/-- The voxel write of `update` followed by its height-map maintenance
preserves the plant-free height invariant. -/
theorem heights_ok_set_and_maintain (reg : Registry) (w1 w2 w3 : Chunks)
    (vx vy vz : Int) (id : Nat) (height : Int)
    (hy : 0 ≤ vy) (hyH : vy < (w1.metrics.max_height : Int))
    (hheight : w1.get_max_height vx vz = some height)
    (hw2 : w1.set_voxel_by_voxel vx vy vz id = some w2)
    (hw3 : update_height_map reg w2 vx vy vz id height = some w3)
    (hinv : world_heights_air_ok reg w1) :
    world_heights_air_ok reg w3 := by
  rw [Chunks.set_voxel_by_voxel, Chunks.modify_chunk_by_voxel] at hw2
  rcases modify_chunk_eq_some hw2 with ⟨ch0, hch0, rfl⟩
  rw [get_max_height_transl, hch0] at hheight
  simp only [Option.map_some', Option.some.injEq] at hheight
  rw [Chunk.get_max_height] at hheight
  have hch0ok : chunk_heights_air_ok reg w1.metrics.chunk_size
      w1.metrics.max_height ch0 := hinv _ (get_chunk_mem hch0)
  have hlyH : vy.toNat < w1.metrics.max_height := by omega
  have hread : ∀ yy : Nat,
      (w1.put_chunk (map_voxel_to_chunk vx vz w1.metrics.chunk_size)
        ((fun (ch : Chunk) =>
          { ch.set_voxel w1.metrics.chunk_size vx vy vz id with
            is_dirty := true }) ch0)).get_voxel_by_voxel vx (yy : Int) vz
      = some (setCol
          (fun y => ch0.vox (localCoord vx ch0.cx w1.metrics.chunk_size) y
            (localCoord vz ch0.cz w1.metrics.chunk_size)) vy.toNat id yy) := by
    intro yy
    rw [get_voxel_transl, metrics_put_chunk, get_chunk_put, if_pos rfl]
    simp only [Option.map_some', Option.some.injEq]
    rw [Chunk.get_voxel, Int.toNat_natCast]
    show (if localCoord vx ch0.cx w1.metrics.chunk_size
            = localCoord vx ch0.cx w1.metrics.chunk_size
          ∧ yy = vy.toNat
          ∧ localCoord vz ch0.cz w1.metrics.chunk_size
            = localCoord vz ch0.cz w1.metrics.chunk_size
        then id
        else ch0.vox (localCoord vx ch0.cx w1.metrics.chunk_size) yy
          (localCoord vz ch0.cz w1.metrics.chunk_size))
      = setCol
          (fun y => ch0.vox (localCoord vx ch0.cx w1.metrics.chunk_size) y
            (localCoord vz ch0.cz w1.metrics.chunk_size)) vy.toNat id yy
    rw [setCol]
    by_cases hyy : yy = vy.toNat
    · rw [if_pos ⟨rfl, hyy, rfl⟩, if_pos hyy]
    · rw [if_neg (by tauto), if_neg hyy]
  have hhm1 : ∀ a c,
      ((fun (ch : Chunk) => { ch.set_voxel w1.metrics.chunk_size vx vy vz id with
          is_dirty := true }) ch0).hmap a c
      = if a = localCoord vx ch0.cx w1.metrics.chunk_size
          ∧ c = localCoord vz ch0.cz w1.metrics.chunk_size
        then height else ch0.hmap a c := by
    intro a c
    by_cases hac : a = localCoord vx ch0.cx w1.metrics.chunk_size
        ∧ c = localCoord vz ch0.cz w1.metrics.chunk_size
    · obtain ⟨rfl, rfl⟩ := hac
      rw [if_pos ⟨rfl, rfl⟩]
      exact hheight
    · rw [if_neg hac]
      rfl
  rw [update_height_map] at hw3
  split at hw3
  · rename_i hair
    split at hw3
    · rename_i hveq
      have hveq' : vy = height := by simpa using hveq
      split at hw3
      · rename_i hvy1
        rcases height_walk_spec reg _ vx vz _ _ hw3 with
          ⟨r, hrle, hset, hr0, habove⟩
        have hr0' : r = 0 ∨ reg.is_air (setCol
            (fun y => ch0.vox (localCoord vx ch0.cx w1.metrics.chunk_size) y
              (localCoord vz ch0.cz w1.metrics.chunk_size)) vy.toNat id r)
            = false := by
          rcases hr0 with h | ⟨idr, hidr, hia⟩
          · exact Or.inl h
          · rw [hread r] at hidr
            cases hidr
            exact Or.inr hia
        have habove' : ∀ y : Nat, r < y → y ≤ (vy - 1).toNat →
            reg.is_air (setCol
              (fun y2 => ch0.vox (localCoord vx ch0.cx w1.metrics.chunk_size)
                y2 (localCoord vz ch0.cz w1.metrics.chunk_size)) vy.toNat id y)
              = true := by
          intro y h1 h2
          rcases habove y h1 h2 with ⟨idy, hidy, hia⟩
          rw [hread y] at hidy
          cases hidy
          exact hia
        rw [Chunks.set_max_height, Chunks.modify_chunk_by_voxel,
          metrics_put_chunk] at hset
        rcases modify_chunk_eq_some hset with ⟨ch1', hget', rfl⟩
        rw [get_chunk_put, if_pos rfl] at hget'
        cases hget'
        refine heights_ok_put_put ?_ hinv
        refine chunk_heights_ok_write reg _ _ ch0
          (localCoord vx ch0.cx w1.metrics.chunk_size) vy.toNat
          (localCoord vz ch0.cz w1.metrics.chunk_size) id (r : Int)
          hch0ok ?_ _ (fun a b c => rfl) (fun a c => rfl)
        intro hlx hlz
        have hc0 := hch0ok _ hlx _ hlz
        rw [hheight] at hc0
        exact column_inv_air_walk reg _ _ height vy.toNat id r hlyH hair hc0
          (by omega) (by omega) (by omega) hr0'
          (fun y h1 h2 => habove' y h1 (by omega))
      · rename_i hvy1
        cases hw3
        refine heights_ok_put ?_ hinv
        refine chunk_heights_ok_write reg _ _ ch0
          (localCoord vx ch0.cx w1.metrics.chunk_size) vy.toNat
          (localCoord vz ch0.cz w1.metrics.chunk_size) id height
          hch0ok ?_ _ (fun a b c => rfl) hhm1
        intro hlx hlz
        have hc0 := hch0ok _ hlx _ hlz
        rw [hheight] at hc0
        exact column_inv_air_nochange reg _ _ height vy.toNat id hair hc0
          (Or.inr ⟨by omega, by omega⟩)
    · rename_i hvne
      have hvne' : vy ≠ height := by simpa using hvne
      cases hw3
      refine heights_ok_put ?_ hinv
      refine chunk_heights_ok_write reg _ _ ch0
        (localCoord vx ch0.cx w1.metrics.chunk_size) vy.toNat
        (localCoord vz ch0.cz w1.metrics.chunk_size) id height
        hch0ok ?_ _ (fun a b c => rfl) hhm1
      intro hlx hlz
      have hc0 := hch0ok _ hlx _ hlz
      rw [hheight] at hc0
      exact column_inv_air_nochange reg _ _ height vy.toNat id hair hc0
        (Or.inl (by omega))
  · rename_i hair
    have hair' : reg.is_air id = false := by simpa using hair
    split at hw3
    · rename_i hlt
      rw [Chunks.set_max_height, Chunks.modify_chunk_by_voxel,
        metrics_put_chunk] at hw3
      rcases modify_chunk_eq_some hw3 with ⟨ch1', hget', rfl⟩
      rw [get_chunk_put, if_pos rfl] at hget'
      cases hget'
      refine heights_ok_put_put ?_ hinv
      refine chunk_heights_ok_write reg _ _ ch0
        (localCoord vx ch0.cx w1.metrics.chunk_size) vy.toNat
        (localCoord vz ch0.cz w1.metrics.chunk_size) id vy
        hch0ok ?_ _ (fun a b c => rfl) (fun a c => rfl)
      intro hlx hlz
      have hc0 := hch0ok _ hlx _ hlz
      rw [hheight] at hc0
      have hres := column_inv_nonair_raise reg _ _ height vy.toNat id hlyH
        hair' hc0 (by omega)
      rwa [Int.toNat_of_nonneg hy] at hres
    · rename_i hlt
      cases hw3
      refine heights_ok_put ?_ hinv
      refine chunk_heights_ok_write reg _ _ ch0
        (localCoord vx ch0.cx w1.metrics.chunk_size) vy.toNat
        (localCoord vz ch0.cz w1.metrics.chunk_size) id height
        hch0ok ?_ _ (fun a b c => rfl) hhm1
      intro hlx hlz
      have hc0 := hch0ok _ hlx _ hlz
      rw [hheight] at hc0
      exact column_inv_nonair_nochange reg _ _ height vy.toNat id hair' hc0
        (by omega)

/-- The light re-seeding stage of `update` (torch placement or
opaque-to-transparent re-flood) preserves the height invariant. -/
theorem heights_ok_update_light_stage {reg : Registry} {fuel : Nat}
    {w4 w' : Chunks} {vx vy vz : Int} {ub cb : Block} {maxH : Int}
    {maxL : Nat}
    (h : (if ub.is_light = true then do
            let w5 ← w4.set_torch_light vx vy vz ub.light_level
            Chunks.flood_light reg fuel w5 [⟨(vx, vy, vz), ub.light_level⟩]
              false
          else if (ub.is_transparent && !cb.is_transparent) = true then do
            let w5 ← update_replace_pass reg fuel false maxH maxL w4 vx vy vz
            update_replace_pass reg fuel true maxH maxL w5 vx vy vz
          else some w4) = some w')
    (hinv : world_heights_air_ok reg w4) : world_heights_air_ok reg w' := by
  split at h
  · rcases Option.bind_eq_some.mp h with ⟨w5, hw5, h9⟩
    exact heights_ok_flood h9 (heights_ok_set_torch hw5 hinv)
  · split at h
    · rcases Option.bind_eq_some.mp h with ⟨w5, hw5, h9⟩
      exact heights_ok_update_replace_pass h9
        (heights_ok_update_replace_pass hw5 hinv)
    · cases h
      exact hinv

/-- C5: `Chunks::update` keeps the height-map invariant — in its plant-free
form (heights point at the topmost non-air voxel, or 0): the claim's
plant-aware form is broken by `update` (see the counterexample), because the
maintenance treats plants as ordinary non-air blocks. -/
theorem c5_update_preserves_height_invariant {reg : Registry} {fuel : Nat}
    {w w' : Chunks} {vx vy vz : Int} {id : Nat}
    (hy : 0 ≤ vy) (hyH : vy < (w.metrics.max_height : Int))
    (hupd : Chunks.update reg fuel w vx vy vz id = some w')
    (hinv : world_heights_air_ok reg w) :
    world_heights_air_ok reg w' := by
  rw [Chunks.update] at hupd
  rcases Option.bind_eq_some.mp hupd with ⟨w1, hw1, h2⟩
  rcases Option.bind_eq_some.mp h2 with ⟨ch, hch, h3⟩
  dsimp only at h3
  rcases Option.bind_eq_some.mp h3 with ⟨height, hheight, h4⟩
  rcases Option.bind_eq_some.mp h4 with ⟨current, hcur, h5⟩
  rcases Option.bind_eq_some.mp h5 with ⟨w2, hw2, h6⟩
  rcases Option.bind_eq_some.mp h6 with ⟨w3, hw3, h7⟩
  have hm1 : w1.metrics = w.metrics := metrics_modify hw1
  have hinv1 : world_heights_air_ok reg w1 :=
    heights_ok_modify hw1 (fun _ => ⟨rfl, rfl⟩) hinv
  have hinv3 : world_heights_air_ok reg w3 :=
    heights_ok_set_and_maintain reg w1 w2 w3 vx vy vz id height hy
      (by rw [hm1]; exact hyH) hheight hw2 hw3 hinv1
  split at h7
  · cases h7
    exact hinv3
  · split at h7
    · rcases Option.bind_eq_some.mp h7 with ⟨w4, hw4, h8⟩
      exact heights_ok_update_light_stage h8 (heights_ok_remove hw4 hinv3)
    · split at h7
      · rcases Option.bind_eq_some.mp h7 with ⟨wa, hwa, h8'⟩
        rcases Option.bind_eq_some.mp h8' with ⟨w4, hwb, h8⟩
        exact heights_ok_update_light_stage h8
          (heights_ok_update_remove_pass hwb
            (heights_ok_update_remove_pass hwa hinv3))
      · rcases Option.bind_eq_some.mp h7 with ⟨w4, hw4, h8⟩
        cases hw4
        exact heights_ok_update_light_stage h8 hinv3

/-- Witness for the C5 preservation theorem: a concrete `update` run on
`wP` whose hypotheses all hold by evaluation. -/
theorem c5_update_preserves_height_invariant_witness :
    ∃ w2 : Chunks, Chunks.update regT 1 wP 0 2 0 1 = some w2
      ∧ world_heights_air_ok regT w2 := by
  rcases hev : Chunks.update regT 1 wP 0 2 0 1 with _ | w2
  · have hs : (Chunks.update regT 1 wP 0 2 0 1).isSome = true := by decide
    rw [hev] at hs
    simp at hs
  · exact ⟨w2, rfl,
      c5_update_preserves_height_invariant (by decide) (by decide) hev
        (by decide)⟩
